import Mathlib

/-!
Verification development for the Corrosion language implementation
(lexer → parser → type checker → evaluator, a tree-walking interpreter
written in Rust).  The Rust data types and functions are shallowly
embedded below: `i64` is modelled as `Int`, `usize` as `Nat`,
`Vec`/`HashMap` as lists / association lists, `Result<T, E>` as
`Except E T`, and the recursive interpreter and parser are given an
explicit fuel parameter (the Rust code recurses without bound).
File-system access (module import) is abstracted into an explicit
resolver argument.
-/

set_option maxHeartbeats 1000000

namespace Corrosion

/-- Source span record from lexer/tokens.rs: byte start/end with 1-based
line and column. -/
structure Span where
  start : Nat
  stop : Nat
  line : Nat
  column : Nat
deriving DecidableEq, Repr

/-- Span constructor mirroring `Span::new`. -/
def Span.new (start stop line column : Nat) : Span :=
  { start := start, stop := stop, line := line, column := column }

/-- Token variants from lexer/tokens.rs. -/
inductive Token where
  | letKw
  | constKw
  | importKw
  | fromKw
  | intKw
  | boolKw
  | stringKw
  | listKw
  | recKw
  | fnKw
  | fixKw
  | fstKw
  | sndKw
  | consKw
  | headKw
  | tailKw
  | printKw
  | ifKw
  | elseKw
  | forKw
  | inKw
  | rangeKw
  | concatKw
  | charKw
  | lengthKw
  | toStringKw
  | inlKw
  | inrKw
  | caseKw
  | ofKw
  | pipe
  | fatArrow
  | asKw
  | trueKw
  | falseKw
  | identifier (name : String)
  | number (value : Int)
  | stringLiteral (value : String)
  | assign
  | arrow
  | plus
  | minus
  | multiply
  | divide
  | equal
  | notEqual
  | lessThan
  | lessThanEqual
  | greaterThan
  | greaterThanEqual
  | logicalAnd
  | logicalOr
  | logicalNot
  | semicolon
  | colon
  | period
  | leftParen
  | rightParen
  | leftBracket
  | rightBracket
  | leftBrace
  | rightBrace
  | comma
  | eof
deriving Repr

/-- Token together with its span, from lexer/tokens.rs `TokenWithSpan`. -/
structure TokenWithSpan where
  token : Token
  span : Span
deriving Repr

/-- Discriminant index of a token constructor; two tokens have the same
Rust `std::mem::discriminant` exactly when this index agrees (payload
ignored), which is how `Parser::check` compares tokens. -/
def Token.kindIdx : Token → Nat
  | .letKw => 0
  | .constKw => 1
  | .importKw => 2
  | .fromKw => 3
  | .intKw => 4
  | .boolKw => 5
  | .stringKw => 6
  | .listKw => 7
  | .recKw => 8
  | .fnKw => 9
  | .fixKw => 10
  | .fstKw => 11
  | .sndKw => 12
  | .consKw => 13
  | .headKw => 14
  | .tailKw => 15
  | .printKw => 16
  | .ifKw => 17
  | .elseKw => 18
  | .forKw => 19
  | .inKw => 20
  | .rangeKw => 21
  | .concatKw => 22
  | .charKw => 23
  | .lengthKw => 24
  | .toStringKw => 25
  | .inlKw => 26
  | .inrKw => 27
  | .caseKw => 28
  | .ofKw => 29
  | .pipe => 30
  | .fatArrow => 31
  | .asKw => 32
  | .trueKw => 33
  | .falseKw => 34
  | .identifier _ => 35
  | .number _ => 36
  | .stringLiteral _ => 37
  | .assign => 38
  | .arrow => 39
  | .plus => 40
  | .minus => 41
  | .multiply => 42
  | .divide => 43
  | .equal => 44
  | .notEqual => 45
  | .lessThan => 46
  | .lessThanEqual => 47
  | .greaterThan => 48
  | .greaterThanEqual => 49
  | .logicalAnd => 50
  | .logicalOr => 51
  | .logicalNot => 52
  | .semicolon => 53
  | .colon => 54
  | .period => 55
  | .leftParen => 56
  | .rightParen => 57
  | .leftBracket => 58
  | .rightBracket => 59
  | .leftBrace => 60
  | .rightBrace => 61
  | .comma => 62
  | .eof => 63

/-- Type expressions (user-written annotations) from ast/nodes.rs. -/
inductive TypeExpression where
  | int (span : Span)
  | bool (span : Span)
  | string (span : Span)
  | list (element : TypeExpression) (span : Span)
  | function (param : TypeExpression) (result : TypeExpression) (span : Span)
  | pair (first : TypeExpression) (second : TypeExpression) (span : Span)
  | sum (left : TypeExpression) (right : TypeExpression) (span : Span)
  | recursive (inner : TypeExpression) (span : Span)
  | named (name : String) (span : Span)
deriving DecidableEq, Repr

/-- Span accessor for type expressions (`Spanned` impl in ast/nodes.rs). -/
def TypeExpression.span : TypeExpression → Span
  | .int s => s
  | .bool s => s
  | .string s => s
  | .list _ s => s
  | .function _ _ s => s
  | .pair _ _ s => s
  | .sum _ _ s => s
  | .recursive _ s => s
  | .named _ s => s

/-- Binary operators from ast/nodes.rs. -/
inductive BinaryOperator where
  | add
  | subtract
  | multiply
  | divide
  | assign
  | equal
  | notEqual
  | lessThan
  | lessThanEqual
  | greaterThan
  | greaterThanEqual
  | logicalAnd
  | logicalOr
deriving DecidableEq, Repr

/-- Unary operators from ast/nodes.rs (only logical not is declared). -/
inductive UnaryOperator where
  | logicalNot
deriving DecidableEq, Repr

mutual

/-- Expression AST from ast/nodes.rs.  Constructor and field names follow
the Rust `Expression` enum (keywords renamed where Lean requires). -/
inductive Expression where
  | identifier (name : String) (span : Span)
  | qualifiedIdentifier (moduleName : String) (name : String) (span : Span)
  | number (value : Int) (span : Span)
  | boolean (value : Bool) (span : Span)
  | string (value : String) (span : Span)
  | binaryOp (left : Expression) (operator : BinaryOperator) (right : Expression) (span : Span)
  | unaryOp (operator : UnaryOperator) (operand : Expression) (span : Span)
  | function (param : String) (paramType : Option TypeExpression) (body : Expression) (span : Span)
  | functionCall (fn : Expression) (argument : Expression) (span : Span)
  | list (elements : List Expression) (span : Span)
  | pair (first : Expression) (second : Expression) (span : Span)
  | leftInject (value : Expression) (span : Span)
  | rightInject (value : Expression) (span : Span)
  | fix (fn : Expression) (span : Span)
  | block (statements : List Statement) (expr : Option Expression) (span : Span)
  | firstProjection (pairE : Expression) (span : Span)
  | secondProjection (pairE : Expression) (span : Span)
  | cons (head : Expression) (tail : Expression) (span : Span)
  | headProjection (listE : Expression) (span : Span)
  | tailProjection (listE : Expression) (span : Span)
  | print (value : Expression) (span : Span)
  | ifE (condition : Expression) (thenBranch : Expression) (elseBranch : Option Expression) (span : Span)
  | forE (varName : String) (iterable : Expression) (body : Expression) (span : Span)
  | range (startE : Expression) (stopE : Expression) (span : Span)
  | concat (left : Expression) (right : Expression) (span : Span)
  | charAt (stringE : Expression) (index : Expression) (span : Span)
  | length (stringE : Expression) (span : Span)
  | toStringE (expr : Expression) (span : Span)
  | typeOf (expr : Expression) (span : Span)
  | caseE (expr : Expression) (leftPat : String) (leftBody : Expression)
      (rightPat : String) (rightBody : Expression) (span : Span)
  deriving Repr

/-- Statement AST from ast/nodes.rs. -/
inductive Statement where
  | variableDeclaration (name : String) (annot : Option TypeExpression)
      (value : Expression) (span : Span)
  | functionDeclaration (name : String) (param : String)
      (paramType : Option TypeExpression) (returnType : Option TypeExpression)
      (body : Expression) (span : Span)
  | importStatement (path : String) (aliasName : Option String) (span : Span)
  | expression (expr : Expression) (span : Span)
  deriving Repr

end

/-- Program node from ast/nodes.rs. -/
structure Program where
  statements : List Statement
  span : Span
deriving Repr

/-- Span accessor for expressions (`Spanned` impl in ast/nodes.rs). -/
def Expression.span : Expression → Span
  | .identifier _ s => s
  | .qualifiedIdentifier _ _ s => s
  | .number _ s => s
  | .boolean _ s => s
  | .string _ s => s
  | .binaryOp _ _ _ s => s
  | .unaryOp _ _ s => s
  | .function _ _ _ s => s
  | .functionCall _ _ s => s
  | .list _ s => s
  | .pair _ _ s => s
  | .leftInject _ s => s
  | .rightInject _ s => s
  | .fix _ s => s
  | .block _ _ s => s
  | .firstProjection _ s => s
  | .secondProjection _ s => s
  | .cons _ _ s => s
  | .headProjection _ s => s
  | .tailProjection _ s => s
  | .print _ s => s
  | .ifE _ _ _ s => s
  | .forE _ _ _ s => s
  | .range _ _ s => s
  | .concat _ _ s => s
  | .charAt _ _ s => s
  | .length _ s => s
  | .toStringE _ s => s
  | .typeOf _ s => s
  | .caseE _ _ _ _ _ s => s

/-- Span accessor for statements (`Spanned` impl in ast/nodes.rs). -/
def Statement.span : Statement → Span
  | .variableDeclaration _ _ _ s => s
  | .functionDeclaration _ _ _ _ _ s => s
  | .importStatement _ _ s => s
  | .expression _ s => s

/-- Parse error variants from ast/parser.rs.  The message strings carried
by `unexpectedToken` reproduce the source's `expected` descriptions with
quote characters dropped. -/
inductive ParseError where
  | unexpectedToken (expected : String) (found : Token) (span : Span)
  | unexpectedEof
  | invalidExpression (message : String) (span : Span)
deriving Repr

/-- Parser state from ast/parser.rs: the owned token buffer and the
cursor index. -/
structure ParserS where
  tokens : List TokenWithSpan
  current : Nat
deriving Repr

/-- Result of running a parsing step: success with the value and updated
state, a parse error, or fuel exhaustion (`out` is an artifact of the
fuel-indexed embedding; the Rust recursion has no such case). -/
inductive PResult (α : Type) where
  | ok (a : α) (p : ParserS)
  | err (e : ParseError)
  | out
deriving Repr

/-- State-passing parsing computation. -/
def PM (α : Type) : Type := ParserS → PResult α

instance : Monad PM where
  pure a := fun p => .ok a p
  bind m f := fun p =>
    match m p with
    | .ok a p' => f a p'
    | .err e => .err e
    | .out => .out

/-- Read the parser state. -/
def getP : PM ParserS := fun p => .ok p p

/-- Fail with a parse error. -/
def errP {α : Type} (e : ParseError) : PM α := fun _ => .err e

/-- Signal fuel exhaustion. -/
def outP {α : Type} : PM α := fun _ => .out

/-- Default token used where Rust would index out of bounds; the lexer
always terminates the buffer with `Eof`, so this is unreachable on lexer
output. -/
def eofDefault : TokenWithSpan := ⟨.eof, Span.new 0 0 0 0⟩

/-- `Parser::peek` (tokens are indexed at `current`). -/
def peekT (p : ParserS) : TokenWithSpan := p.tokens.getD p.current eofDefault

/-- `Parser::previous` (tokens are indexed at `current - 1`). -/
def previousT (p : ParserS) : TokenWithSpan := p.tokens.getD (p.current - 1) eofDefault

/-- `Parser::is_at_end`. -/
def isAtEnd (p : ParserS) : Bool :=
  decide (p.current ≥ p.tokens.length) ||
    (match (peekT p).token with | .eof => true | _ => false)

/-- `Parser::check`: discriminant comparison of the lookahead against an
expected token. -/
def checkT (p : ParserS) (t : Token) : Bool :=
  !isAtEnd p && ((peekT p).token.kindIdx == t.kindIdx)

/-- `Parser::previous_span` with its fallback span. -/
def previousSpan (p : ParserS) : Span :=
  if p.current > 0 then (previousT p).span else Span.new 0 0 1 1

/-- `Parser::current_span`. -/
def currentSpan (p : ParserS) : Span :=
  if isAtEnd p && decide (p.current > 0) then previousSpan p else (peekT p).span

/-- `Parser::advance`: step the cursor unless at end, returning the token
before the (new) cursor. -/
def advanceM : PM TokenWithSpan := fun p =>
  let p' := if isAtEnd p then p else { p with current := p.current + 1 }
  .ok (previousT p') p'

/-- `Parser::consume`: advance past an expected token or report an
unexpected-token error with the given description. -/
def consumeT (t : Token) (msg : String) : PM TokenWithSpan := fun p =>
  if checkT p t then advanceM p
  else .err (.unexpectedToken msg (peekT p).token (currentSpan p))

/-- `Parser::get_binary_operator`: the fixed precedence table.  Higher
numbers bind tighter. -/
def getBinaryOperator : Token → Option (Nat × BinaryOperator)
  | .plus => some (10, .add)
  | .minus => some (10, .subtract)
  | .multiply => some (20, .multiply)
  | .divide => some (20, .divide)
  | .equal => some (5, .equal)
  | .notEqual => some (5, .notEqual)
  | .lessThan => some (5, .lessThan)
  | .lessThanEqual => some (5, .lessThanEqual)
  | .greaterThan => some (5, .greaterThan)
  | .greaterThanEqual => some (5, .greaterThanEqual)
  | .logicalAnd => some (3, .logicalAnd)
  | .logicalOr => some (2, .logicalOr)
  | _ => none

mutual

/-- `Parser::parse_expression`. -/
def parseExpression : Nat → PM Expression
  | 0 => outP
  | fuel + 1 => parseBinaryExpression fuel 0

/-- `Parser::parse_binary_expression`: precedence climbing with a minimum
binding power. -/
def parseBinaryExpression : Nat → Nat → PM Expression
  | 0, _ => outP
  | fuel + 1, minPrecedence => do
    let left ← parsePrimary fuel
    parseBinaryLoop fuel minPrecedence left

/-- The `while` loop inside `Parser::parse_binary_expression`, unfolded
into recursion on fuel: fold binary operators of sufficient precedence
into a left-nested tree. -/
def parseBinaryLoop : Nat → Nat → Expression → PM Expression
  | 0, _, _ => outP
  | fuel + 1, minPrecedence, left => do
    let p ← getP
    if isAtEnd p then pure left
    else
      match getBinaryOperator (peekT p).token with
      | none => pure left
      | some (precedence, operator) =>
        if precedence < minPrecedence then pure left
        else do
          let _ ← advanceM
          let right ← parseBinaryExpression fuel (precedence + 1)
          let span := Span.new left.span.start right.span.stop left.span.line left.span.column
          parseBinaryLoop fuel minPrecedence (.binaryOp left operator right span)

/-- `Parser::parse_primary`, followed by the postfix function-application
loop (see `parseCallSuffix`). -/
def parsePrimary : Nat → PM Expression
  | 0 => outP
  | fuel + 1 => do
    let atom ← parseAtom fuel
    parseCallSuffix fuel atom

/-- The atom cases of `Parser::parse_primary` from ast/parser.rs
(number, boolean, identifier, `fn`, parenthesized-or-pair), extended with
the string-literal and `print(e)` atoms.  The latter two are modelled
from the spec: spec §4.1 lists string literals and keyword built-ins
among the atoms, ast/nodes.rs declares the corresponding constructors
and the in-tree tests parse them, but the checked-in revision of
ast/parser.rs predates them. -/
def parseAtom : Nat → PM Expression
  | 0 => outP
  | fuel + 1 => do
    let tw ← advanceM
    match tw.token with
    | .number value => do
      let p ← getP
      pure (.number value (previousSpan p))
    | .trueKw => do
      let p ← getP
      pure (.boolean true (previousSpan p))
    | .falseKw => do
      let p ← getP
      pure (.boolean false (previousSpan p))
    | .identifier name => do
      let p ← getP
      pure (.identifier name (previousSpan p))
    | .stringLiteral value => do
      let p ← getP
      pure (.string value (previousSpan p))
    | .printKw => parsePrintCall fuel
    | .fnKw => parseFunctionExpression fuel
    | .leftParen => parseParenthesizedOrPair fuel
    | tok => do
      let p ← getP
      errP (.unexpectedToken "expression" tok (previousSpan p))

/-- Modelled from the spec: the postfix function-application loop that is
missing from the checked-in revision of ast/parser.rs.  Spec §4.1:
"an atom immediately followed by `(` consumes one argument expression
and a `)`, then the result is the applicand for further application";
EBNF: `atom ("(" expr ")")*`.  The `Expression::FunctionCall` node it
builds is declared in ast/nodes.rs and exercised by
ast/declaration_tests.rs. -/
def parseCallSuffix : Nat → Expression → PM Expression
  | 0, _ => outP
  | fuel + 1, left => do
    let p ← getP
    if checkT p .leftParen then do
      let _ ← advanceM
      let argument ← parseExpression fuel
      let _ ← consumeT .rightParen "Expected ) after argument"
      let p' ← getP
      let span := Span.new left.span.start (previousSpan p').stop left.span.line left.span.column
      parseCallSuffix fuel (.functionCall left argument span)
    else pure left

/-- Modelled from the spec: the `print ( expr )` keyword atom (spec §4.1
and EBNF `"print" "(" expr ")"`), absent from the checked-in revision of
ast/parser.rs; `Expression::Print` is declared in ast/nodes.rs and
evaluated by the interpreter. -/
def parsePrintCall : Nat → PM Expression
  | 0 => outP
  | fuel + 1 => do
    let p0 ← getP
    let startSpan := previousSpan p0
    let _ ← consumeT .leftParen "Expected ( after print"
    let value ← parseExpression fuel
    let _ ← consumeT .rightParen "Expected ) after print argument"
    let p1 ← getP
    let endSpan := previousSpan p1
    pure (.print value (Span.new startSpan.start endSpan.stop startSpan.line startSpan.column))

/-- `Parser::parse_function_expression`.  The source revision constructs
`Expression::Function` without a parameter-type annotation; the `none`
supplied here reflects that. -/
def parseFunctionExpression : Nat → PM Expression
  | 0 => outP
  | fuel + 1 => do
    let p0 ← getP
    let startSpan := previousSpan p0
    let _ ← consumeT .leftParen "Expected ( after fn"
    let tw ← advanceM
    match tw.token with
    | .identifier param => do
      let _ ← consumeT .rightParen "Expected ) after parameter"
      let _ ← consumeT .leftBrace "Expected brace to start function body"
      let body ← parseExpression fuel
      let _ ← consumeT .rightBrace "Expected brace to end function body"
      let p1 ← getP
      let endSpan := previousSpan p1
      pure (.function param none body
        (Span.new startSpan.start endSpan.stop startSpan.line startSpan.column))
    | _ => do
      let p ← getP
      errP (.unexpectedToken "parameter name" (previousT p).token (previousSpan p))

/-- `Parser::parse_parenthesized_or_pair_expression`. -/
def parseParenthesizedOrPair : Nat → PM Expression
  | 0 => outP
  | fuel + 1 => do
    let p0 ← getP
    let startSpan := previousSpan p0
    let first ← parseExpression fuel
    let p1 ← getP
    if (match (peekT p1).token with | .comma => true | _ => false) then do
      let _ ← advanceM
      let second ← parseExpression fuel
      let _ ← consumeT .rightParen "Expected ) after pair"
      let p2 ← getP
      let endSpan := previousSpan p2
      pure (.pair first second
        (Span.new startSpan.start endSpan.stop startSpan.line startSpan.column))
    else do
      let _ ← consumeT .rightParen "Expected )"
      pure first

/-- `Parser::parse_type_expression`. -/
def parseTypeExpression : Nat → PM TypeExpression
  | 0 => outP
  | fuel + 1 => parseFunctionType fuel

/-- `Parser::parse_function_type` (left-to-right loop over `->`; note the
source builds a left-nested tree here). -/
def parseFunctionType : Nat → PM TypeExpression
  | 0 => outP
  | fuel + 1 => do
    let left ← parsePrimaryType fuel
    parseFunctionTypeLoop fuel left

/-- The `while` loop inside `Parser::parse_function_type`. -/
def parseFunctionTypeLoop : Nat → TypeExpression → PM TypeExpression
  | 0, _ => outP
  | fuel + 1, left => do
    let p ← getP
    if (match (peekT p).token with | .arrow => true | _ => false) then do
      let _ ← advanceM
      let right ← parsePrimaryType fuel
      let span := Span.new left.span.start right.span.stop left.span.line left.span.column
      parseFunctionTypeLoop fuel (.function left right span)
    else pure left

/-- `Parser::parse_primary_type`. -/
def parsePrimaryType : Nat → PM TypeExpression
  | 0 => outP
  | fuel + 1 => do
    let tw ← advanceM
    match tw.token with
    | .intKw => do
      let p ← getP
      pure (.int (previousSpan p))
    | .boolKw => do
      let p ← getP
      pure (.bool (previousSpan p))
    | .listKw => do
      let p ← getP
      let startSpan := previousSpan p
      let element ← parseFunctionType fuel
      pure (.list element
        (Span.new startSpan.start element.span.stop startSpan.line startSpan.column))
    | .recKw => do
      let p ← getP
      let startSpan := previousSpan p
      let inner ← parseFunctionType fuel
      pure (.recursive inner
        (Span.new startSpan.start inner.span.stop startSpan.line startSpan.column))
    | .identifier name => do
      let p ← getP
      pure (.named name (previousSpan p))
    | .leftParen => do
      let first ← parseFunctionType fuel
      let p1 ← getP
      if (match (peekT p1).token with | .comma => true | _ => false) then do
        let _ ← advanceM
        let second ← parseFunctionType fuel
        let _ ← consumeT .rightParen "Expected )"
        let p2 ← getP
        let endSpan := previousSpan p2
        pure (.pair first second
          (Span.new first.span.start endSpan.stop first.span.line first.span.column))
      else do
        let _ ← consumeT .rightParen "Expected )"
        pure first
    | tok => do
      let p ← getP
      errP (.unexpectedToken "type expression" tok (previousSpan p))

/-- `Parser::parse_statement`: one-token dispatch (the source revision
dispatches only on `let`; everything else is an expression statement). -/
def parseStatement : Nat → PM Statement
  | 0 => outP
  | fuel + 1 => do
    let p ← getP
    match (peekT p).token with
    | .letKw => parseVariableDeclaration fuel
    | _ => parseExpressionStatement fuel

/-- `Parser::parse_variable_declaration`. -/
def parseVariableDeclaration : Nat → PM Statement
  | 0 => outP
  | fuel + 1 => do
    let p0 ← getP
    let startSpan := currentSpan p0
    let _ ← consumeT .letKw "Expected let"
    let tw ← advanceM
    match tw.token with
    | .identifier name => do
      let p1 ← getP
      let annot ← (if (match (peekT p1).token with | .colon => true | _ => false) then do
        let _ ← advanceM
        let t ← parseTypeExpression fuel
        pure (some t)
      else pure (none : Option TypeExpression))
      let _ ← consumeT .assign "Expected ="
      let value ← parseExpression fuel
      let _ ← consumeT .semicolon "Expected ;"
      let p2 ← getP
      let endSpan := previousSpan p2
      pure (.variableDeclaration name annot value
        (Span.new startSpan.start endSpan.stop startSpan.line startSpan.column))
    | _ => do
      let p ← getP
      errP (.unexpectedToken "identifier" (previousT p).token (previousSpan p))

/-- `Parser::parse_expression_statement`. -/
def parseExpressionStatement : Nat → PM Statement
  | 0 => outP
  | fuel + 1 => do
    let expr ← parseExpression fuel
    let span := expr.span
    let _ ← consumeT .semicolon "Expected ;"
    pure (.expression expr span)

/-- The statement loop of `Parser::parse`. -/
def parseStatements : Nat → List Statement → PM (List Statement)
  | 0, _ => outP
  | fuel + 1, acc => do
    let p ← getP
    if isAtEnd p then pure acc
    else
      match (peekT p).token with
      | .eof => pure acc
      | _ => do
        let st ← parseStatement fuel
        parseStatements fuel (acc ++ [st])

end

/-- `Parser::parse`: the whole-program entry point. -/
def parseProgramM (fuel : Nat) : PM Program := do
  let p0 ← getP
  let startSpan := currentSpan p0
  let statements ← parseStatements fuel []
  let p1 ← getP
  let endSpan := if statements.isEmpty then startSpan else previousSpan p1
  pure ⟨statements, Span.new startSpan.start endSpan.stop startSpan.line startSpan.column⟩

/-- Run the parser on a token buffer (`Parser::new` followed by
`Parser::parse`). -/
def runParse (tokens : List TokenWithSpan) (fuel : Nat) : PResult Program :=
  parseProgramM fuel { tokens := tokens, current := 0 }

/-- Internal type representation from typechecker/types.rs `Type`. -/
inductive Ty where
  | int
  | bool
  | string
  | unit
  | function (param : Ty) (result : Ty)
  | pair (first : Ty) (second : Ty)
  | list (element : Ty)
  | sum (left : Ty) (right : Ty)
  | recursive (inner : Ty)
  | unknown
  | error
deriving DecidableEq, Repr

/-- Binary operations in type-checking context, from typechecker/types.rs
`BinaryOp`. -/
inductive TCBinaryOp where
  | add
  | subtract
  | multiply
  | divide
  | assign
  | equal
  | notEqual
  | lessThan
  | lessThanEqual
  | greaterThan
  | greaterThanEqual
  | logicalAnd
  | logicalOr
deriving DecidableEq, Repr

/-- The `From<BinaryOperator> for BinaryOp` conversion in
typechecker/types.rs. -/
def TCBinaryOp.fromAst : BinaryOperator → TCBinaryOp
  | .add => .add
  | .subtract => .subtract
  | .multiply => .multiply
  | .divide => .divide
  | .assign => .assign
  | .equal => .equal
  | .notEqual => .notEqual
  | .lessThan => .lessThan
  | .lessThanEqual => .lessThanEqual
  | .greaterThan => .greaterThan
  | .greaterThanEqual => .greaterThanEqual
  | .logicalAnd => .logicalAnd
  | .logicalOr => .logicalOr

/-- `Type::is_assignable_to` from typechecker/types.rs. -/
def Ty.isAssignableTo (a b : Ty) : Bool :=
  match a, b with
  | .error, _ => true
  | _, .error => true
  | .unknown, _ => true
  | _, .unknown => true
  | a, b => a == b

/-- `Type::can_binary_op` from typechecker/types.rs.  The arms are laid
out in the source's match order; the guarded `Assign` arm falls through
to `none` exactly as the Rust guard failure does (all of the later Rust
arms are unreachable after a failed guard, because the guard only fails
when neither side is `Error` or `Unknown`). -/
def Ty.canBinaryOp (l : Ty) (op : TCBinaryOp) (r : Ty) : Option Ty :=
  match l, op, r with
  | .int, .add, .int => some .int
  | .int, .subtract, .int => some .int
  | .int, .multiply, .int => some .int
  | .int, .divide, .int => some .int
  | .int, .equal, .int => some .bool
  | .int, .notEqual, .int => some .bool
  | .int, .lessThan, .int => some .bool
  | .int, .lessThanEqual, .int => some .bool
  | .int, .greaterThan, .int => some .bool
  | .int, .greaterThanEqual, .int => some .bool
  | .bool, .equal, .bool => some .bool
  | .bool, .notEqual, .bool => some .bool
  | .string, .add, .string => some .string
  | .string, .equal, .string => some .bool
  | .string, .notEqual, .string => some .bool
  | .bool, .logicalAnd, .bool => some .bool
  | .bool, .logicalOr, .bool => some .bool
  | lhs, .assign, rhs => if lhs.isAssignableTo rhs then some rhs else none
  | .error, _, _ => some .error
  | _, _, .error => some .error
  | .unknown, .equal, _ => some .bool
  | _, .equal, .unknown => some .bool
  | .unknown, .notEqual, _ => some .bool
  | _, .notEqual, .unknown => some .bool
  | .unknown, .lessThan, _ => some .bool
  | _, .lessThan, .unknown => some .bool
  | .unknown, .lessThanEqual, _ => some .bool
  | _, .lessThanEqual, .unknown => some .bool
  | .unknown, .greaterThan, _ => some .bool
  | _, .greaterThan, .unknown => some .bool
  | .unknown, .greaterThanEqual, _ => some .bool
  | _, .greaterThanEqual, .unknown => some .bool
  | .unknown, .logicalAnd, _ => some .bool
  | _, .logicalAnd, .unknown => some .bool
  | .unknown, .logicalOr, _ => some .bool
  | _, .logicalOr, .unknown => some .bool
  | .unknown, _, rhs => some rhs
  | lhs, _, .unknown => some lhs
  | _, _, _ => none

/-- Type-checking errors from typechecker/checker.rs `TypeError`. -/
inductive TypeError where
  | undefinedVariable (name : String) (span : Span)
  | typeMismatch (expected : Ty) (found : Ty) (span : Span)
  | invalidBinaryOperation (left : Ty) (op : TCBinaryOp) (right : Ty) (span : Span)
  | redefinedVariable (name : String) (span : Span)
  | importError (path : String) (message : String) (span : Span)
deriving DecidableEq, Repr

/-- Typed expression node from typechecker/types.rs: the computed type
together with the source span (no children are retained). -/
structure TypedExpression where
  ty : Ty
  span : Span
deriving DecidableEq, Repr

/-- `TypedExpression::new`. -/
def TypedExpression.new (ty : Ty) (span : Span) : TypedExpression :=
  { ty := ty, span := span }

/-- Typed statements from typechecker/types.rs. -/
inductive TypedStatement where
  | variableDeclaration (name : String) (ty : Ty) (value : TypedExpression) (span : Span)
  | functionDeclaration (name : String) (param : String) (paramType : Ty)
      (returnType : Ty) (body : TypedExpression) (span : Span)
  | importStatement (path : String) (aliasName : Option String) (span : Span)
  | expression (expr : TypedExpression) (span : Span)
deriving DecidableEq, Repr

/-- Typed program from typechecker/types.rs. -/
structure TypedProgram where
  statements : List TypedStatement
  span : Span
deriving DecidableEq, Repr

/-- Association-list update with `HashMap::insert` semantics: the new
binding shadows/replaces any previous binding of the same key. -/
def insertAssoc {α : Type} (l : List (String × α)) (k : String) (v : α) : List (String × α) :=
  (k, v) :: l.filter (fun kv => kv.1 ≠ k)

/-- Association-list lookup. -/
def lookupAssoc {α : Type} (l : List (String × α)) (k : String) : Option α :=
  (l.find? (fun kv => kv.1 == k)).map (·.2)

/-- Scoped typing environment from typechecker/environment.rs: a binding
map (association list standing in for `HashMap<String, Type>`) plus an
optional parent scope. -/
inductive TCEnv where
  | mk (bindings : List (String × Ty)) (parent : Option TCEnv)
deriving Repr

/-- `Environment::new`. -/
def TCEnv.new : TCEnv := .mk [] none

/-- `Environment::with_parent`. -/
def TCEnv.withParent (parent : TCEnv) : TCEnv := .mk [] (some parent)

/-- `Environment::bind` (and the identical `Environment::update`). -/
def TCEnv.bind : TCEnv → String → Ty → TCEnv
  | .mk bindings parent, name, ty => .mk (insertAssoc bindings name ty) parent

/-- `Environment::lookup`: search the current scope, then parents. -/
def TCEnv.lookup : TCEnv → String → Option Ty
  | .mk bindings parent, name =>
    match lookupAssoc bindings name with
    | some ty => some ty
    | none =>
      match parent with
      | some p => p.lookup name
      | none => none

/-- `Environment::is_bound_locally`. -/
def TCEnv.isBoundLocally : TCEnv → String → Bool
  | .mk bindings _, name => (lookupAssoc bindings name).isSome

/-- `Environment::enter_scope`: the current environment becomes the
parent of a fresh scope. -/
def TCEnv.enterScope (e : TCEnv) : TCEnv := .mk [] (some e)

/-- `Environment::exit_scope`: restore the parent (the source keeps the
current environment when there is no parent). -/
def TCEnv.exitScope : TCEnv → TCEnv
  | .mk bindings parent =>
    match parent with
    | some p => p
    | none => .mk bindings none

/-- `TypeChecker::convert_type_expression`. -/
def convertTypeExpression : TypeExpression → Except TypeError Ty
  | .int _ => .ok .int
  | .bool _ => .ok .bool
  | .string _ => .ok .string
  | .list element _ => do
    let e ← convertTypeExpression element
    .ok (.list e)
  | .function param result _ => do
    let p ← convertTypeExpression param
    let r ← convertTypeExpression result
    .ok (.function p r)
  | .pair first second _ => do
    let f ← convertTypeExpression first
    let s ← convertTypeExpression second
    .ok (.pair f s)
  | .sum left right _ => do
    let l ← convertTypeExpression left
    let r ← convertTypeExpression right
    .ok (.sum l r)
  | .recursive inner _ => do
    let i ← convertTypeExpression inner
    .ok (.recursive i)
  | .named name span => .error (.undefinedVariable name span)

/-- `TypeChecker::refine_type_with_annotation`: `Unknown` slots of the
inferred type adopt the annotated type's slots, one constructor level
deep (the source never returns an error here). -/
def refineTypeWithAnn (inferred annotated : Ty) : Except TypeError Ty :=
  match inferred, annotated with
  | .function infParam infResult, .function annParam annResult =>
    .ok (.function (if infParam = .unknown then annParam else infParam)
      (if infResult = .unknown then annResult else infResult))
  | .list infElem, .list annElem =>
    .ok (.list (if infElem = .unknown then annElem else infElem))
  | .sum infLeft infRight, .sum annLeft annRight =>
    .ok (.sum (if infLeft = .unknown then annLeft else infLeft)
      (if infRight = .unknown then annRight else infRight))
  | inf, _ => .ok inf

/-- `TypeChecker::refine_type_with_context`, with the source's match
order (in particular any original type meets context `Unknown` before
the congruence arms fire, so `refine t Unknown = t`). -/
def refineTypeWithContext (original context : Ty) : Ty :=
  match original, context with
  | .unknown, c => if c = .unknown then .unknown else c
  | .list e, .list ce => .list (refineTypeWithContext e ce)
  | o, .unknown => o
  | .sum a b, .sum ca cb => .sum (refineTypeWithContext a ca) (refineTypeWithContext b cb)
  | .function p r, _ =>
    .function (refineTypeWithContext p .unknown) (refineTypeWithContext r .unknown)
  | o, _ => o

/-- `TypeChecker::types_compatible`: `Unknown` is compatible with
everything; congruence over function, list, pair and sum constructors;
structural equality otherwise. -/
def typesCompatible (t1 t2 : Ty) : Bool :=
  match t1, t2 with
  | .unknown, _ => true
  | _, .unknown => true
  | .function p1 r1, .function p2 r2 => typesCompatible p1 p2 && typesCompatible r1 r2
  | .list e1, .list e2 => typesCompatible e1 e2
  | .pair f1 s1, .pair f2 s2 => typesCompatible f1 f2 && typesCompatible s1 s2
  | .sum l1 r1, .sum l2 r2 => typesCompatible l1 l2 && typesCompatible r1 r2
  | a, b => a == b

mutual

/-- `TypeChecker::expression_uses_parameter`. -/
def expressionUsesParameter (param : String) : Expression → Bool
  | .identifier name _ => name == param
  | .binaryOp left _ right _ =>
    expressionUsesParameter param left || expressionUsesParameter param right
  | .functionCall fn argument _ =>
    expressionUsesParameter param fn || expressionUsesParameter param argument
  | .firstProjection pairE _ => expressionUsesParameter param pairE
  | .secondProjection pairE _ => expressionUsesParameter param pairE
  | .headProjection listE _ => expressionUsesParameter param listE
  | .tailProjection listE _ => expressionUsesParameter param listE
  | .caseE expr _ leftBody _ rightBody _ =>
    expressionUsesParameter param expr || expressionUsesParameter param leftBody ||
      expressionUsesParameter param rightBody
  | .block statements expr _ =>
    statementsUseParameter param statements ||
      (match expr with
       | some e => expressionUsesParameter param e
       | none => false)
  | _ => false

/-- The `statements.iter().any(..)` fold inside
`TypeChecker::expression_uses_parameter`. -/
def statementsUseParameter (param : String) : List Statement → Bool
  | [] => false
  | st :: rest => statementUsesParameter param st || statementsUseParameter param rest

/-- `TypeChecker::statement_uses_parameter`. -/
def statementUsesParameter (param : String) : Statement → Bool
  | .variableDeclaration _ _ value _ => expressionUsesParameter param value
  | .functionDeclaration _ _ _ _ body _ => expressionUsesParameter param body
  | .importStatement _ _ _ => false
  | .expression expr _ => expressionUsesParameter param expr

end

mutual

/-- `TypeChecker::analyze_parameter_usage`: heuristically infer a
parameter type from the syntactic usage of the parameter in the body. -/
def analyzeParameterUsage (param : String) : Expression → Option Ty
  | .identifier _ _ => none
  | .binaryOp left operator right _ =>
    let leftPairUsage := analyzeParameterUsage param left
    let rightPairUsage := analyzeParameterUsage param right
    if (match leftPairUsage with | some (.pair _ _) => true | _ => false) then
      leftPairUsage
    else if (match rightPairUsage with | some (.pair _ _) => true | _ => false) then
      rightPairUsage
    else
      let leftUsesParam := expressionUsesParameter param left
      let rightUsesParam := expressionUsesParameter param right
      let leftListUsage := analyzeParameterUsage param left
      let rightListUsage := analyzeParameterUsage param right
      let isArith : Bool :=
        match operator with
        | .add | .subtract | .multiply | .divide => true
        | _ => false
      if isArith && (match leftListUsage with | some (.list _) => true | _ => false) then
        some (.list .int)
      else if isArith && (match rightListUsage with | some (.list _) => true | _ => false) then
        some (.list .int)
      else if leftUsesParam || rightUsesParam then
        match operator with
        | .add | .subtract | .multiply | .divide => some .int
        | .logicalAnd | .logicalOr => some .bool
        | _ => none
      else
        leftPairUsage.orElse (fun _ => rightPairUsage)
  | .functionCall fn argument _ =>
    if (match fn with | .identifier name _ => name == param | _ => false) then
      some (.function .unknown .unknown)
    else if (match argument with
             | .tailProjection listE _ => expressionUsesParameter param listE
             | _ => false) then
      some (.list .unknown)
    else
      (analyzeParameterUsage param fn).orElse (fun _ => analyzeParameterUsage param argument)
  | .firstProjection pairE _ =>
    if expressionUsesParameter param pairE then some (.pair .unknown .unknown)
    else analyzeParameterUsage param pairE
  | .secondProjection pairE _ =>
    if expressionUsesParameter param pairE then some (.pair .unknown .unknown)
    else analyzeParameterUsage param pairE
  | .headProjection listE _ =>
    if expressionUsesParameter param listE then some (.list .unknown)
    else analyzeParameterUsage param listE
  | .tailProjection listE _ =>
    if expressionUsesParameter param listE then some (.list .unknown)
    else analyzeParameterUsage param listE
  | .caseE expr _ leftBody _ rightBody _ =>
    if expressionUsesParameter param expr then some (.sum .unknown .unknown)
    else
      (analyzeParameterUsage param leftBody).orElse
        (fun _ => analyzeParameterUsage param rightBody)
  | .block statements expr _ =>
    (analyzeParameterUsageInStatements param statements).orElse (fun _ =>
      match expr with
      | some e => analyzeParameterUsage param e
      | none => none)
  | _ => none

/-- The statement fold inside the block arm of
`TypeChecker::analyze_parameter_usage`. -/
def analyzeParameterUsageInStatements (param : String) : List Statement → Option Ty
  | [] => none
  | st :: rest =>
    (analyzeParameterUsageInStatement param st).orElse
      (fun _ => analyzeParameterUsageInStatements param rest)

/-- `TypeChecker::analyze_parameter_usage_in_statement`. -/
def analyzeParameterUsageInStatement (param : String) : Statement → Option Ty
  | .variableDeclaration _ _ value _ => analyzeParameterUsage param value
  | .functionDeclaration _ _ _ _ body _ => analyzeParameterUsage param body
  | .importStatement _ _ _ => none
  | .expression expr _ => analyzeParameterUsage param expr

end

/-- `TypeChecker::get_expression_type_hint`. -/
def getExpressionTypeHint (env : TCEnv) : Expression → Ty
  | .number _ _ => .int
  | .boolean _ _ => .bool
  | .identifier name _ =>
    match env.lookup name with
    | some ty => ty
    | none => .unknown
  | .function _ _ _ _ => .function .unknown .unknown
  | _ => .unknown

mutual

/-- `TypeChecker::analyze_function_usage`. -/
def analyzeFunctionUsage (env : TCEnv) (param : String) : Expression → Option Ty
  | .functionCall fn argument _ =>
    if (match fn with | .identifier name _ => name == param | _ => false) then
      some (.function (getExpressionTypeHint env argument) .unknown)
    else
      (analyzeFunctionUsage env param fn).orElse
        (fun _ => analyzeFunctionUsage env param argument)
  | .function _ _ body _ => analyzeFunctionUsage env param body
  | .block statements expr _ =>
    (analyzeFunctionUsageInStatements env param statements).orElse (fun _ =>
      match expr with
      | some e => analyzeFunctionUsage env param e
      | none => none)
  | _ => none

/-- The statement fold inside the block arm of
`TypeChecker::analyze_function_usage` (only bare expression statements
are examined by the source). -/
def analyzeFunctionUsageInStatements (env : TCEnv) (param : String) :
    List Statement → Option Ty
  | [] => none
  | .expression expr _ :: rest =>
    (analyzeFunctionUsage env param expr).orElse
      (fun _ => analyzeFunctionUsageInStatements env param rest)
  | _ :: rest => analyzeFunctionUsageInStatements env param rest

end

mutual

/-- `TypeChecker::parameter_used_as_function`. -/
def parameterUsedAsFunction (param : String) : Expression → Bool
  | .functionCall fn _ _ =>
    (match fn with | .identifier name _ => name == param | _ => false)
  | .function _ _ body _ => parameterUsedAsFunction param body
  | .block statements expr _ =>
    parameterUsedAsFunctionInStatements param statements ||
      (match expr with
       | some e => parameterUsedAsFunction param e
       | none => false)
  | _ => false

/-- The statement fold inside the block arm of
`TypeChecker::parameter_used_as_function` (only bare expression
statements are examined by the source). -/
def parameterUsedAsFunctionInStatements (param : String) : List Statement → Bool
  | [] => false
  | .expression expr _ :: rest =>
    parameterUsedAsFunction param expr || parameterUsedAsFunctionInStatements param rest
  | _ :: rest => parameterUsedAsFunctionInStatements param rest

end

/-- `TypeChecker::infer_parameter_type` (the source's signature returns a
`TypeResult`, but no branch fails). -/
def inferParameterType (env : TCEnv) (param : String) (body : Expression) :
    Except TypeError Ty :=
  match analyzeParameterUsage param body with
  | some ty => .ok ty
  | none =>
    match analyzeFunctionUsage env param body with
    | some ty => .ok ty
    | none =>
      if parameterUsedAsFunction param body then .ok (.function .unknown .unknown)
      else .ok .unknown

/-- Exported name→type table of a type-checked module. -/
abbrev ModuleExports := List (String × Ty)

/-- Modelled from the spec: `TypeChecker::load_and_check_module` reads a
file, lexes, parses and type-checks it and harvests its top-level
bindings (spec §4.2 Module loading).  The file system and the recursive
pipeline run are abstracted into a resolver that returns the exports of
a path, or `none` when the file cannot be processed. -/
abbrev ModuleResolver := String → Option ModuleExports

/-- Mutable state of `TypeChecker` that the checking functions thread:
the environment and the loaded-modules table.  (The source struct also
carries a write-only diagnostics list and the current directory used to
resolve imports; neither influences checking results and both are
omitted.) -/
structure TCCtx where
  env : TCEnv
  modules : List (String × ModuleExports)

/-- The element-compatibility scan inside the list-literal arm of
`TypeChecker::check_expression` (elements after the first must be
assignable to the first element's type; the error carries the offending
element's span). -/
def firstListMismatch (elementType : Ty) :
    List (TypedExpression × Expression) → Option TypeError
  | [] => none
  | (te, e) :: rest =>
    if !(te.ty.isAssignableTo elementType) then
      some (.typeMismatch elementType te.ty e.span)
    else firstListMismatch elementType rest

mutual

/-- `TypeChecker::check_expression`. -/
def checkExpression (resolve : ModuleResolver) (ctx : TCCtx) :
    Expression → Except TypeError TypedExpression
  | .number _ span => .ok (TypedExpression.new .int span)
  | .boolean _ span => .ok (TypedExpression.new .bool span)
  | .string _ span => .ok (TypedExpression.new .string span)
  | .identifier name span =>
    match ctx.env.lookup name with
    | some ty => .ok (TypedExpression.new ty span)
    | none => .error (.undefinedVariable name span)
  | .qualifiedIdentifier moduleName name span =>
    match lookupAssoc ctx.modules moduleName with
    | some moduleExports =>
      match lookupAssoc moduleExports name with
      | some exportType => .ok (TypedExpression.new exportType span)
      | none => .error (.undefinedVariable (moduleName ++ "." ++ name) span)
    | none =>
      .error (.importError moduleName ("Module " ++ moduleName ++ " not found") span)
  | .binaryOp left operator right span => do
    let typedLeft ← checkExpression resolve ctx left
    let typedRight ← checkExpression resolve ctx right
    let op := TCBinaryOp.fromAst operator
    match typedLeft.ty.canBinaryOp op typedRight.ty with
    | some resultType => .ok (TypedExpression.new resultType span)
    | none => .error (.invalidBinaryOperation typedLeft.ty op typedRight.ty span)
  | .unaryOp operator operand span => do
    let typedOperand ← checkExpression resolve ctx operand
    match operator with
    | .logicalNot =>
      if typedOperand.ty = .bool then .ok (TypedExpression.new .bool span)
      else .error (.typeMismatch .bool typedOperand.ty span)
  | .function param paramType body span => do
    let paramTy ← (match paramType with
      | some pte => convertTypeExpression pte
      | none => inferParameterType ctx.env param body)
    let fnCtx : TCCtx :=
      { env := (TCEnv.withParent ctx.env).bind param paramTy, modules := ctx.modules }
    let typedBody ← checkExpression resolve fnCtx body
    .ok (TypedExpression.new (.function paramTy typedBody.ty) span)
  | .functionCall fn argument span => do
    let functionTyped ← checkExpression resolve ctx fn
    let argumentTyped ← checkExpression resolve ctx argument
    match functionTyped.ty with
    | .function param result =>
      let refinedParam := refineTypeWithContext param argumentTyped.ty
      let refinedResult := refineTypeWithContext result .unknown
      let isCompatible :=
        typesCompatible argumentTyped.ty refinedParam ||
        (argumentTyped.ty == .unknown &&
          (match refinedParam with | .list _ => true | _ => false)) ||
        (match argumentTyped.ty with | .list .unknown => true | _ => false) ||
        (match argumentTyped.ty with
         | .sum l r => l == .unknown || r == .unknown
         | _ => false) ||
        (match refinedParam with
         | .sum l r => l == .unknown || r == .unknown
         | _ => false)
      if isCompatible then .ok (TypedExpression.new refinedResult span)
      else .error (.typeMismatch refinedParam argumentTyped.ty span)
    | .unknown => .ok (TypedExpression.new .unknown span)
    | _ =>
      .error (.typeMismatch (.function .unknown .unknown) functionTyped.ty span)
  | .list elements span =>
    match elements with
    | [] => .ok (TypedExpression.new (.list .unknown) span)
    | e0 :: restEs => do
      let typedElements ← checkExpressionList resolve ctx (e0 :: restEs)
      match typedElements with
      | [] => .ok (TypedExpression.new (.list .unknown) span)
      | te0 :: restTs =>
        let elementType := te0.ty
        match firstListMismatch elementType (restTs.zip restEs) with
        | some e => .error e
        | none => .ok (TypedExpression.new (.list elementType) span)
  | .pair first second span => do
    let typedFirst ← checkExpression resolve ctx first
    let typedSecond ← checkExpression resolve ctx second
    .ok (TypedExpression.new (.pair typedFirst.ty typedSecond.ty) span)
  | .leftInject value span => do
    let typedValue ← checkExpression resolve ctx value
    .ok (TypedExpression.new (.sum typedValue.ty .unknown) span)
  | .rightInject value span => do
    let typedValue ← checkExpression resolve ctx value
    .ok (TypedExpression.new (.sum .unknown typedValue.ty) span)
  | .caseE expr leftPat leftBody rightPat rightBody span => do
    let typedExpr ← checkExpression resolve ctx expr
    match typedExpr.ty with
    | .sum left right =>
      let leftType := if left = Ty.unknown then Ty.unknown else left
      let leftCtx : TCCtx :=
        { env := (TCEnv.withParent ctx.env).bind leftPat leftType, modules := ctx.modules }
      let typedLeftBody ← checkExpression resolve leftCtx leftBody
      let rightType := if right = Ty.unknown then Ty.unknown else right
      let rightCtx : TCCtx :=
        { env := (TCEnv.withParent ctx.env).bind rightPat rightType, modules := ctx.modules }
      let typedRightBody ← checkExpression resolve rightCtx rightBody
      if typesCompatible typedLeftBody.ty typedRightBody.ty then
        let resultType :=
          if typedLeftBody.ty = Ty.unknown then typedRightBody.ty else typedLeftBody.ty
        .ok (TypedExpression.new resultType span)
      else .error (.typeMismatch typedLeftBody.ty typedRightBody.ty rightBody.span)
    | _ => .error (.typeMismatch (.sum .unknown .unknown) typedExpr.ty expr.span)
  | .fix fn span => do
    let funcTyped ← checkExpression resolve ctx fn
    match funcTyped.ty with
    | .function param result =>
      match param, result with
      | .function innerParam innerResult, .function outerParam outerResult =>
        if typesCompatible innerParam innerResult &&
            typesCompatible outerParam outerResult &&
            typesCompatible innerParam outerParam then
          .ok (TypedExpression.new (.function outerParam outerResult) span)
        else
          .ok (TypedExpression.new (.function outerParam outerResult) span)
      | _, _ => .ok (TypedExpression.new result span)
    | _ => .ok (TypedExpression.new .error span)
  | .block statements expr span => do
    let blockCtx : TCCtx := { env := TCEnv.withParent ctx.env, modules := ctx.modules }
    let blockCtx' ← checkBlockStatements resolve blockCtx statements
    match expr with
    | some e => checkExpression resolve blockCtx' e
    | none => .ok (TypedExpression.new .unit span)
  | .firstProjection pairE span => do
    let pairTyped ← checkExpression resolve ctx pairE
    match pairTyped.ty with
    | .pair first _ => .ok (TypedExpression.new first span)
    | _ => .error (.typeMismatch (.pair .error .error) pairTyped.ty span)
  | .secondProjection pairE span => do
    let pairTyped ← checkExpression resolve ctx pairE
    match pairTyped.ty with
    | .pair _ second => .ok (TypedExpression.new second span)
    | _ => .error (.typeMismatch (.pair .error .error) pairTyped.ty span)
  | .cons head tail span => do
    let headTyped ← checkExpression resolve ctx head
    let tailTyped ← checkExpression resolve ctx tail
    match tailTyped.ty with
    | .list element =>
      if typesCompatible headTyped.ty element then
        .ok (TypedExpression.new tailTyped.ty span)
      else .error (.typeMismatch element headTyped.ty head.span)
    | _ => .error (.typeMismatch (.list .unknown) tailTyped.ty tail.span)
  | .headProjection listE span => do
    let listTyped ← checkExpression resolve ctx listE
    match listTyped.ty with
    | .list element => .ok (TypedExpression.new element span)
    | _ => .error (.typeMismatch (.list .unknown) listTyped.ty span)
  | .tailProjection listE span => do
    let listTyped ← checkExpression resolve ctx listE
    match listTyped.ty with
    | .list _ => .ok (TypedExpression.new listTyped.ty span)
    | _ => .error (.typeMismatch (.list .unknown) listTyped.ty span)
  | .print value span => do
    let _ ← checkExpression resolve ctx value
    .ok (TypedExpression.new .unit span)
  | .forE varName iterable body span => do
    let iterableTyped ← checkExpression resolve ctx iterable
    match iterableTyped.ty with
    | .list element =>
      let forCtx : TCCtx :=
        { env := (TCEnv.withParent ctx.env).bind varName element, modules := ctx.modules }
      let _ ← checkExpression resolve forCtx body
      .ok (TypedExpression.new .unit span)
    | _ => .error (.typeMismatch (.list .unknown) iterableTyped.ty span)
  | .range startE stopE span => do
    let startTyped ← checkExpression resolve ctx startE
    let stopTyped ← checkExpression resolve ctx stopE
    if startTyped.ty ≠ Ty.int then .error (.typeMismatch .int startTyped.ty span)
    else if stopTyped.ty ≠ Ty.int then .error (.typeMismatch .int stopTyped.ty span)
    else .ok (TypedExpression.new (.list .int) span)
  | .concat left right span => do
    let leftTyped ← checkExpression resolve ctx left
    let rightTyped ← checkExpression resolve ctx right
    if leftTyped.ty ≠ Ty.string then .error (.typeMismatch .string leftTyped.ty span)
    else if rightTyped.ty ≠ Ty.string then .error (.typeMismatch .string rightTyped.ty span)
    else .ok (TypedExpression.new .string span)
  | .charAt stringE index span => do
    let stringTyped ← checkExpression resolve ctx stringE
    let indexTyped ← checkExpression resolve ctx index
    if stringTyped.ty ≠ Ty.string then .error (.typeMismatch .string stringTyped.ty span)
    else if indexTyped.ty ≠ Ty.int then .error (.typeMismatch .int indexTyped.ty span)
    else .ok (TypedExpression.new .string span)
  | .length stringE span => do
    let stringTyped ← checkExpression resolve ctx stringE
    if stringTyped.ty ≠ Ty.string then .error (.typeMismatch .string stringTyped.ty span)
    else .ok (TypedExpression.new .int span)
  | .toStringE expr span => do
    let _ ← checkExpression resolve ctx expr
    .ok (TypedExpression.new .string span)
  | .typeOf expr span => do
    let _ ← checkExpression resolve ctx expr
    .ok (TypedExpression.new .string span)
  | .ifE condition thenBranch elseBranch span => do
    let conditionTyped ← checkExpression resolve ctx condition
    if conditionTyped.ty ≠ Ty.bool then
      .error (.typeMismatch .bool conditionTyped.ty condition.span)
    else do
      let thenTyped ← checkExpression resolve ctx thenBranch
      match elseBranch with
      | some elseB => do
        let elseTyped ← checkExpression resolve ctx elseB
        if thenTyped.ty.isAssignableTo elseTyped.ty &&
            elseTyped.ty.isAssignableTo thenTyped.ty then
          .ok (TypedExpression.new thenTyped.ty span)
        else .ok (TypedExpression.new (.sum thenTyped.ty elseTyped.ty) span)
      | none =>
        if thenTyped.ty ≠ Ty.unit then
          .error (.typeMismatch .unit thenTyped.ty thenBranch.span)
        else .ok (TypedExpression.new .unit span)

/-- The element fold of the list-literal arm of
`TypeChecker::check_expression`. -/
def checkExpressionList (resolve : ModuleResolver) (ctx : TCCtx) :
    List Expression → Except TypeError (List TypedExpression)
  | [] => .ok []
  | e :: rest => do
    let te ← checkExpression resolve ctx e
    let restTyped ← checkExpressionList resolve ctx rest
    .ok (te :: restTyped)

/-- `TypeChecker::check_statement`.  Returns the typed statement and the
updated checker state. -/
def checkStatement (resolve : ModuleResolver) (ctx : TCCtx) :
    Statement → Except TypeError (TypedStatement × TCCtx)
  | .variableDeclaration name annot value span =>
    if ctx.env.isBoundLocally name then .error (.redefinedVariable name span)
    else do
      let typedValue ← checkExpression resolve ctx value
      let inferredType := typedValue.ty
      let finalType ← (match annot with
        | some a => do
          let annotatedType ← convertTypeExpression a
          let refinedType ← refineTypeWithAnn inferredType annotatedType
          if !typesCompatible annotatedType refinedType then
            Except.error (.typeMismatch annotatedType refinedType span)
          else pure annotatedType
        | none => pure inferredType)
      let env' := ctx.env.bind name finalType
      .ok (.variableDeclaration name finalType typedValue span, { ctx with env := env' })
  | .functionDeclaration name param paramType returnType body span =>
    if ctx.env.isBoundLocally name then .error (.redefinedVariable name span)
    else do
      let env1 := ctx.env.enterScope
      let expectedReturnType ← (match returnType with
        | some rt => do
          let t ← convertTypeExpression rt
          pure (some t)
        | none => pure (none : Option Ty))
      let paramTy ← (match paramType with
        | some pte => convertTypeExpression pte
        | none => pure Ty.unknown)
      let env2 := env1.bind param paramTy
      let typedBody ← checkExpression resolve { ctx with env := env2 } body
      let actualReturnType := typedBody.ty
      let finalReturnType ← (match expectedReturnType with
        | some expected =>
          if !typesCompatible expected actualReturnType then
            Except.error (.typeMismatch expected actualReturnType span)
          else pure expected
        | none => pure actualReturnType)
      let envOut := env2.exitScope
      let functionType := Ty.function paramTy finalReturnType
      let envOut' := envOut.bind name functionType
      .ok (.functionDeclaration name param paramTy finalReturnType typedBody span,
        { ctx with env := envOut' })
  | .importStatement path aliasName span =>
    let importName := aliasName.getD path
    match resolve path with
    | some moduleExports =>
      .ok (.importStatement path aliasName span,
        { ctx with modules := insertAssoc ctx.modules importName moduleExports })
    | none =>
      .error (.importError path ("Failed to read module file: " ++ path) span)
  | .expression expr span => do
    let typedExpr ← checkExpression resolve ctx expr
    .ok (.expression typedExpr span, ctx)

/-- The statement fold of the block arm of
`TypeChecker::check_expression` (typed statements are discarded; the
block checker's state is threaded). -/
def checkBlockStatements (resolve : ModuleResolver) :
    TCCtx → List Statement → Except TypeError TCCtx
  | ctx, [] => .ok ctx
  | ctx, st :: rest => do
    let (_, ctx') ← checkStatement resolve ctx st
    checkBlockStatements resolve ctx' rest

end

/-- The statement fold of `TypeChecker::check_program`. -/
def checkProgramFold (resolve : ModuleResolver) :
    TCCtx → List Statement → Except TypeError (List TypedStatement × TCCtx)
  | ctx, [] => .ok ([], ctx)
  | ctx, st :: rest => do
    let (ts, ctx') ← checkStatement resolve ctx st
    let (restTyped, ctx'') ← checkProgramFold resolve ctx' rest
    .ok (ts :: restTyped, ctx'')

/-- `TypeChecker::new` followed by `TypeChecker::check_program`: check all
statements in order, stopping at the first error, and return the typed
program with the program's span. -/
def checkProgram (resolve : ModuleResolver) (program : Program) :
    Except TypeError TypedProgram := do
  let (typedStatements, _) ←
    checkProgramFold resolve { env := TCEnv.new, modules := [] } program.statements
  .ok ⟨typedStatements, program.span⟩

/-- A resolver for programs without imports (every import fails, as when
no module file exists). -/
def noModules : ModuleResolver := fun _ => none

/-- Runtime values, following the `Value` enum as used by
interpreter/interpreter.rs (the checked-in revision of
interpreter/value.rs predates the `String` and `Module` variants that
the interpreter constructs and matches; both are included here).  A
closure's captured environment is the full scope stack; scopes are
stored most-recent-first (the Rust `Vec` stores them most-recent-last
and iterates in reverse). -/
inductive Value where
  | int (i : Int)
  | bool (b : Bool)
  | string (s : String)
  | unit
  | list (elements : List Value)
  | pair (first : Value) (second : Value)
  | function (param : String) (body : Expression) (env : List (List (String × Value)))
  | leftInject (v : Value)
  | rightInject (v : Value)
  | fixedPoint (fn : Value)
  | module (name : String) (exports : List (String × Value))
deriving Repr

/-- Runtime environment from interpreter/environment.rs: a stack of
scopes, each a name→value map (most recent scope first here). -/
abbrev REnv := List (List (String × Value))

/-- `Environment::new`: one empty global scope. -/
def renvNew : REnv := [[]]

/-- `Environment::push_scope`. -/
def renvPushScope (env : REnv) : REnv := [] :: env

/-- `Environment::pop_scope` (keeps the global scope). -/
def renvPopScope (env : REnv) : REnv :=
  match env with
  | s :: rest => if rest.isEmpty then s :: rest else rest
  | [] => []

/-- `Environment::bind`: insert into the most recent scope. -/
def renvBind (env : REnv) (name : String) (v : Value) : REnv :=
  match env with
  | scope :: rest => insertAssoc scope name v :: rest
  | [] => []

/-- `Environment::lookup`: search from the most recent scope outwards. -/
def renvLookup (env : REnv) (name : String) : Option Value :=
  match env with
  | [] => none
  | scope :: rest =>
    match lookupAssoc scope name with
    | some v => some v
    | none => renvLookup rest name

/-- Runtime error variants from interpreter/mod.rs `InterpreterError`. -/
inductive InterpreterError where
  | runtimeError (message : String) (span : Option Span)
  | divisionByZero (span : Span)
  | undefinedVariable (name : String) (span : Span)
  | typeError (expected : String) (found : String) (span : Span)
  | notCallable (span : Span)
  | indexOutOfBounds (index : Int) (length : Nat) (span : Span)
deriving DecidableEq, Repr

/-- `Value::type_name` (with the names of the `String` and `Module`
variants the stale value.rs lacks). -/
def Value.typeName : Value → String
  | .int _ => "Int"
  | .bool _ => "Bool"
  | .string _ => "String"
  | .unit => "Unit"
  | .list _ => "List"
  | .pair _ _ => "Pair"
  | .function _ _ _ => "Function"
  | .leftInject _ => "LeftInject"
  | .rightInject _ => "RightInject"
  | .fixedPoint _ => "FixedPoint"
  | .module _ _ => "Module"

/-- `Value::is_truthy`: false for `Bool(false)`, `Unit`, `Int(0)` and the
empty list; true for everything else. -/
def Value.isTruthy : Value → Bool
  | .bool b => b
  | .unit => false
  | .int n => decide (n ≠ 0)
  | .list l => !l.isEmpty
  | .fixedPoint _ => true
  | _ => true

mutual

/-- `Interpreter::value_to_string`: the stable textual form of a value. -/
def valueToString : Value → String
  | .int i => toString i
  | .bool b => toString b
  | .string s => s
  | .unit => "()"
  | .list elements => "[" ++ String.intercalate ", " (valueToStringList elements) ++ "]"
  | .pair first second =>
    "(" ++ valueToString first ++ ", " ++ valueToString second ++ ")"
  | .function _ _ _ => "<function>"
  | .leftInject v => "inl(" ++ valueToString v ++ ")"
  | .rightInject v => "inr(" ++ valueToString v ++ ")"
  | .fixedPoint _ => "<fixed-point>"
  | .module name _ => "<module " ++ name ++ ">"

/-- The element map inside the list arm of
`Interpreter::value_to_string`. -/
def valueToStringList : List Value → List String
  | [] => []
  | v :: rest => valueToString v :: valueToStringList rest

end

mutual

/-- The interpreter's own `Interpreter::expression_uses_param` (distinct
from the checker's version: it traverses blocks only through the
trailing expression and also looks into list and pair literals). -/
def iExpressionUsesParam (param : String) : Expression → Bool
  | .block _ expr _ =>
    match expr with
    | some e => iExpressionUsesParam param e
    | none => false
  | .identifier name _ => name == param
  | .binaryOp left _ right_ _ =>
    iExpressionUsesParam param left || iExpressionUsesParam param right_
  | .functionCall fn argument _ =>
    iExpressionUsesParam param fn || iExpressionUsesParam param argument
  | .firstProjection pairE _ => iExpressionUsesParam param pairE
  | .secondProjection pairE _ => iExpressionUsesParam param pairE
  | .headProjection listE _ => iExpressionUsesParam param listE
  | .tailProjection listE _ => iExpressionUsesParam param listE
  | .list elements _ => iAnyUsesParam param elements
  | .pair first second _ =>
    iExpressionUsesParam param first || iExpressionUsesParam param second
  | _ => false

/-- The `elements.iter().any(..)` fold inside
`Interpreter::expression_uses_param`. -/
def iAnyUsesParam (param : String) : List Expression → Bool
  | [] => false
  | e :: rest => iExpressionUsesParam param e || iAnyUsesParam param rest

end

/-- `Interpreter::infer_expression_type_string`. -/
def inferExpressionTypeString (param : String) : Expression → String
  | .block _ expr _ =>
    match expr with
    | some e => inferExpressionTypeString param e
    | none => "Unit"
  | .number _ _ => "Int"
  | .boolean _ _ => "Bool"
  | .string _ _ => "String"
  | .identifier _ _ => "Unknown"
  | .binaryOp left operator right_ _ =>
    (match operator with
     | .add | .subtract | .multiply | .divide => "Int"
     | .equal | .notEqual | .lessThan | .lessThanEqual | .greaterThan
     | .greaterThanEqual | .logicalAnd | .logicalOr => "Bool"
     | _ =>
       let leftType := inferExpressionTypeString param left
       if leftType ≠ "Unknown" then leftType
       else inferExpressionTypeString param right_)
  | .list elements _ =>
    (match elements with
     | [] => "List Unknown"
     | e0 :: _ => "List " ++ inferExpressionTypeString param e0)
  | .pair first second _ =>
    "(" ++ inferExpressionTypeString param first ++ ", " ++
      inferExpressionTypeString param second ++ ")"
  | .function _ _ _ _ => "Function"
  | .print _ _ => "Unit"
  | _ => "Unknown"

/-- `Interpreter::infer_parameter_type_from_usage`. -/
def inferParameterTypeFromUsage (param : String) : Expression → String
  | .block _ expr _ =>
    match expr with
    | some e => inferParameterTypeFromUsage param e
    | none => "Unknown"
  | .binaryOp left operator right_ _ =>
    let paramUsedDirectly :=
      (match left with | .identifier name _ => name == param | _ => false) ||
        (match right_ with | .identifier name _ => name == param | _ => false)
    if paramUsedDirectly then
      match operator with
      | .add | .subtract | .multiply | .divide => "Int"
      | .logicalAnd | .logicalOr => "Bool"
      | .equal | .notEqual | .lessThan | .lessThanEqual | .greaterThan
      | .greaterThanEqual =>
        (match left, right_ with
         | .number _ _, _ => "Int"
         | _, .number _ _ => "Int"
         | _, _ => "Unknown")
      | _ => "Unknown"
    else
      let leftInfer := inferParameterTypeFromUsage param left
      if leftInfer ≠ "Unknown" then leftInfer
      else inferParameterTypeFromUsage param right_
  | .functionCall fn argument _ =>
    if (match fn with | .identifier name _ => name == param | _ => false) then
      inferExpressionTypeString param argument ++ " -> Unknown"
    else
      let fnInfer := inferParameterTypeFromUsage param fn
      if fnInfer ≠ "Unknown" then fnInfer
      else inferParameterTypeFromUsage param argument
  | .firstProjection pairE _ =>
    if iExpressionUsesParam param pairE then "(Unknown, Unknown)"
    else inferParameterTypeFromUsage param pairE
  | .secondProjection pairE _ =>
    if iExpressionUsesParam param pairE then "(Unknown, Unknown)"
    else inferParameterTypeFromUsage param pairE
  | .headProjection listE _ =>
    if iExpressionUsesParam param listE then "List Unknown"
    else inferParameterTypeFromUsage param listE
  | .tailProjection listE _ =>
    if iExpressionUsesParam param listE then "List Unknown"
    else inferParameterTypeFromUsage param listE
  | .cons head tail _ =>
    let headInfer := inferParameterTypeFromUsage param head
    if headInfer ≠ "Unknown" then headInfer
    else inferParameterTypeFromUsage param tail
  | _ => "Unknown"

/-- `Interpreter::infer_function_type_string`. -/
def inferFunctionTypeString (param : String) (body : Expression) : String :=
  inferParameterTypeFromUsage param body ++ " -> " ++ inferExpressionTypeString param body

/-- `Interpreter::value_to_type_string` (used by `typeOf`). -/
def valueToTypeString : Value → String
  | .int _ => "Int"
  | .bool _ => "Bool"
  | .string _ => "String"
  | .unit => "Unit"
  | .list elements =>
    (match elements with
     | [] => "List Unknown"
     | v0 :: _ => "List " ++ valueToTypeString v0)
  | .pair first second =>
    "(" ++ valueToTypeString first ++ ", " ++ valueToTypeString second ++ ")"
  | .function param body _ => inferFunctionTypeString param body
  | .leftInject v => "(" ++ valueToTypeString v ++ " + Unknown)"
  | .rightInject v => "(Unknown + " ++ valueToTypeString v ++ ")"
  | .fixedPoint _ => "FixedPoint"
  | .module _ _ => "Module"

mutual

/-- Structural equality on expressions: the derived `PartialEq` of the
Rust `Expression` enum. -/
def exprBeq : Expression → Expression → Bool
  | .identifier n1 s1, .identifier n2 s2 => n1 == n2 && s1 == s2
  | .qualifiedIdentifier m1 n1 s1, .qualifiedIdentifier m2 n2 s2 =>
    m1 == m2 && n1 == n2 && s1 == s2
  | .number v1 s1, .number v2 s2 => v1 == v2 && s1 == s2
  | .boolean v1 s1, .boolean v2 s2 => v1 == v2 && s1 == s2
  | .string v1 s1, .string v2 s2 => v1 == v2 && s1 == s2
  | .binaryOp l1 o1 r1 s1, .binaryOp l2 o2 r2 s2 =>
    exprBeq l1 l2 && o1 == o2 && exprBeq r1 r2 && s1 == s2
  | .unaryOp o1 e1 s1, .unaryOp o2 e2 s2 => o1 == o2 && exprBeq e1 e2 && s1 == s2
  | .function p1 t1 b1 s1, .function p2 t2 b2 s2 =>
    p1 == p2 && t1 == t2 && exprBeq b1 b2 && s1 == s2
  | .functionCall f1 a1 s1, .functionCall f2 a2 s2 =>
    exprBeq f1 f2 && exprBeq a1 a2 && s1 == s2
  | .list es1 s1, .list es2 s2 => exprListBeq es1 es2 && s1 == s2
  | .pair f1 x1 s1, .pair f2 x2 s2 => exprBeq f1 f2 && exprBeq x1 x2 && s1 == s2
  | .leftInject v1 s1, .leftInject v2 s2 => exprBeq v1 v2 && s1 == s2
  | .rightInject v1 s1, .rightInject v2 s2 => exprBeq v1 v2 && s1 == s2
  | .fix f1 s1, .fix f2 s2 => exprBeq f1 f2 && s1 == s2
  | .block st1 e1 s1, .block st2 e2 s2 =>
    stmtListBeq st1 st2 && optExprBeq e1 e2 && s1 == s2
  | .firstProjection p1 s1, .firstProjection p2 s2 => exprBeq p1 p2 && s1 == s2
  | .secondProjection p1 s1, .secondProjection p2 s2 => exprBeq p1 p2 && s1 == s2
  | .cons h1 t1 s1, .cons h2 t2 s2 => exprBeq h1 h2 && exprBeq t1 t2 && s1 == s2
  | .headProjection l1 s1, .headProjection l2 s2 => exprBeq l1 l2 && s1 == s2
  | .tailProjection l1 s1, .tailProjection l2 s2 => exprBeq l1 l2 && s1 == s2
  | .print v1 s1, .print v2 s2 => exprBeq v1 v2 && s1 == s2
  | .ifE c1 t1 e1 s1, .ifE c2 t2 e2 s2 =>
    exprBeq c1 c2 && exprBeq t1 t2 && optExprBeq e1 e2 && s1 == s2
  | .forE v1 i1 b1 s1, .forE v2 i2 b2 s2 =>
    v1 == v2 && exprBeq i1 i2 && exprBeq b1 b2 && s1 == s2
  | .range a1 b1 s1, .range a2 b2 s2 => exprBeq a1 a2 && exprBeq b1 b2 && s1 == s2
  | .concat l1 r1 s1, .concat l2 r2 s2 => exprBeq l1 l2 && exprBeq r1 r2 && s1 == s2
  | .charAt x1 i1 s1, .charAt x2 i2 s2 => exprBeq x1 x2 && exprBeq i1 i2 && s1 == s2
  | .length x1 s1, .length x2 s2 => exprBeq x1 x2 && s1 == s2
  | .toStringE e1 s1, .toStringE e2 s2 => exprBeq e1 e2 && s1 == s2
  | .typeOf e1 s1, .typeOf e2 s2 => exprBeq e1 e2 && s1 == s2
  | .caseE e1 lp1 lb1 rp1 rb1 s1, .caseE e2 lp2 lb2 rp2 rb2 s2 =>
    exprBeq e1 e2 && lp1 == lp2 && exprBeq lb1 lb2 && rp1 == rp2 &&
      exprBeq rb1 rb2 && s1 == s2
  | _, _ => false

/-- Structural equality on optional expressions. -/
def optExprBeq : Option Expression → Option Expression → Bool
  | none, none => true
  | some a, some b => exprBeq a b
  | _, _ => false

/-- Structural equality on expression lists. -/
def exprListBeq : List Expression → List Expression → Bool
  | [], [] => true
  | a :: as_, b :: bs => exprBeq a b && exprListBeq as_ bs
  | _, _ => false

/-- Structural equality on statements: the derived `PartialEq` of the
Rust `Statement` enum. -/
def stmtBeq : Statement → Statement → Bool
  | .variableDeclaration n1 a1 v1 s1, .variableDeclaration n2 a2 v2 s2 =>
    n1 == n2 && a1 == a2 && exprBeq v1 v2 && s1 == s2
  | .functionDeclaration n1 p1 pt1 rt1 b1 s1, .functionDeclaration n2 p2 pt2 rt2 b2 s2 =>
    n1 == n2 && p1 == p2 && pt1 == pt2 && rt1 == rt2 && exprBeq b1 b2 && s1 == s2
  | .importStatement p1 a1 s1, .importStatement p2 a2 s2 =>
    p1 == p2 && a1 == a2 && s1 == s2
  | .expression e1 s1, .expression e2 s2 => exprBeq e1 e2 && s1 == s2
  | _, _ => false

/-- Structural equality on statement lists. -/
def stmtListBeq : List Statement → List Statement → Bool
  | [], [] => true
  | a :: as_, b :: bs => stmtBeq a b && stmtListBeq as_ bs
  | _, _ => false

end

mutual

/-- Structural (deep) equality on runtime values: the derived
`PartialEq` of the Rust `Value` enum.  Closures compare by parameter
name, deep equality of the body and deep equality of the captured
environment. -/
def valueBeq : Value → Value → Bool
  | .int a, .int b => a == b
  | .bool a, .bool b => a == b
  | .string a, .string b => a == b
  | .unit, .unit => true
  | .list a, .list b => valueListBeq a b
  | .pair a1 a2, .pair b1 b2 => valueBeq a1 b1 && valueBeq a2 b2
  | .function p1 b1 e1, .function p2 b2 e2 =>
    p1 == p2 && exprBeq b1 b2 && renvBeq e1 e2
  | .leftInject a, .leftInject b => valueBeq a b
  | .rightInject a, .rightInject b => valueBeq a b
  | .fixedPoint a, .fixedPoint b => valueBeq a b
  | .module n1 e1, .module n2 e2 => n1 == n2 && scopeBeq e1 e2
  | _, _ => false

/-- Deep equality on value lists. -/
def valueListBeq : List Value → List Value → Bool
  | [], [] => true
  | a :: as_, b :: bs => valueBeq a b && valueListBeq as_ bs
  | _, _ => false

/-- Deep equality on one scope (name→value map). -/
def scopeBeq : List (String × Value) → List (String × Value) → Bool
  | [], [] => true
  | (n1, v1) :: as_, (n2, v2) :: bs => n1 == n2 && valueBeq v1 v2 && scopeBeq as_ bs
  | _, _ => false

/-- Deep equality on scope stacks. -/
def renvBeq : List (List (String × Value)) → List (List (String × Value)) → Bool
  | [], [] => true
  | a :: as_, b :: bs => scopeBeq a b && renvBeq as_ bs
  | _, _ => false

end

/-- The body of the list-building loop of the `Range` arm of
`Interpreter::interpret_expression`, indexed by the remaining iteration
count: starting at `s`, push `Int(s)`, `Int(s+1)`, … . -/
def rangeValsAux : Int → Nat → List Value
  | _, 0 => []
  | s, n + 1 => .int s :: rangeValsAux (s + 1) n

/-- The list-building loop of the `Range` arm of
`Interpreter::interpret_expression`: `for i in s..e` pushes `Int(i)`;
the Rust range `s..e` yields exactly `(e - s).toNat` consecutive
integers starting at `s` (none when `s ≥ e`). -/
def rangeVals (s e : Int) : List Value := rangeValsAux s (e - s).toNat

/-- The value-level dispatch of `Interpreter::interpret_binary_op` (the
match over the operator after both operands have been evaluated).  The
`span` is the span of the whole binary-operation node. -/
def binaryOpValues (operator : BinaryOperator) (leftVal rightVal : Value) (span : Span) :
    Except InterpreterError Value :=
  match operator with
  | .add =>
    (match leftVal, rightVal with
     | .int l, .int r => .ok (.int (l + r))
     | .string l, .string r => .ok (.string (l ++ r))
     | _, _ =>
       .error (.typeError "Int + Int or String + String"
         (leftVal.typeName ++ " + " ++ rightVal.typeName) span))
  | .subtract =>
    (match leftVal, rightVal with
     | .int l, .int r => .ok (.int (l - r))
     | _, _ =>
       .error (.typeError "Int - Int"
         (leftVal.typeName ++ " - " ++ rightVal.typeName) span))
  | .multiply =>
    (match leftVal, rightVal with
     | .int l, .int r => .ok (.int (l * r))
     | _, _ =>
       .error (.typeError "Int * Int"
         (leftVal.typeName ++ " * " ++ rightVal.typeName) span))
  | .divide =>
    (match leftVal, rightVal with
     | .int l, .int r =>
       if r = 0 then .error (.divisionByZero span)
       else .ok (.int (Int.tdiv l r))
     | _, _ =>
       .error (.typeError "Int / Int"
         (leftVal.typeName ++ " / " ++ rightVal.typeName) span))
  | .equal => .ok (.bool (valueBeq leftVal rightVal))
  | .notEqual => .ok (.bool (!valueBeq leftVal rightVal))
  | .lessThan =>
    (match leftVal, rightVal with
     | .int l, .int r => .ok (.bool (decide (l < r)))
     | _, _ =>
       .error (.typeError "Int < Int"
         (leftVal.typeName ++ " < " ++ rightVal.typeName) span))
  | .lessThanEqual =>
    (match leftVal, rightVal with
     | .int l, .int r => .ok (.bool (decide (l ≤ r)))
     | _, _ =>
       .error (.typeError "Int <= Int"
         (leftVal.typeName ++ " <= " ++ rightVal.typeName) span))
  | .greaterThan =>
    (match leftVal, rightVal with
     | .int l, .int r => .ok (.bool (decide (l > r)))
     | _, _ =>
       .error (.typeError "Int > Int"
         (leftVal.typeName ++ " > " ++ rightVal.typeName) span))
  | .greaterThanEqual =>
    (match leftVal, rightVal with
     | .int l, .int r => .ok (.bool (decide (l ≥ r)))
     | _, _ =>
       .error (.typeError "Int >= Int"
         (leftVal.typeName ++ " >= " ++ rightVal.typeName) span))
  | .logicalAnd => .ok (.bool (leftVal.isTruthy && rightVal.isTruthy))
  | .logicalOr => .ok (.bool (leftVal.isTruthy || rightVal.isTruthy))
  | .assign =>
    .error (.runtimeError "Assignment operator not supported in expressions" (some span))

/-- Modelled from the spec: `Interpreter::load_module` reads a file,
lexes, parses and runs it in a fresh interpreter and captures its final
top-level bindings (spec §4.3 Module loading).  The file system and the
recursive pipeline run are abstracted into a resolver returning the
module's exported name→value table, or `none` on failure. -/
abbrev RModuleResolver := String → Option (List (String × Value))

/-- Result of a fuel-indexed evaluation step: success, a runtime error,
or fuel exhaustion (`out` models only the nontermination of the
embedding; the Rust code recurses without bound). -/
inductive EResult (α : Type) where
  | ok (a : α)
  | err (e : InterpreterError)
  | out
deriving Repr

instance : Monad EResult where
  pure a := .ok a
  bind m f :=
    match m with
    | .ok a => f a
    | .err e => .err e
    | .out => .out

mutual

/-- `Interpreter::interpret_expression`.  Expressions never net-mutate
the interpreter's environment (blocks and case branches push a scope,
run in it and pop it; the source does the same through `with_new_scope`
and explicit push/pop), so the environment is passed read-only.  The
`print` side effect on stdout is dropped. -/
def interpretExpr (vresolve : RModuleResolver) : Nat → REnv → Expression → EResult Value
  | 0, _, _ => .out
  | fuel + 1, env, expr =>
    match expr with
    | .number value _ => .ok (.int value)
    | .boolean value _ => .ok (.bool value)
    | .string value _ => .ok (.string value)
    | .identifier name span =>
      (match renvLookup env name with
       | some v => .ok v
       | none => .err (.undefinedVariable name span))
    | .qualifiedIdentifier moduleName name span =>
      (match renvLookup env moduleName with
       | some (.module _ exports) =>
         (match lookupAssoc exports name with
          | some v => .ok v
          | none => .err (.undefinedVariable (moduleName ++ "." ++ name) span))
       | some other => .err (.typeError "Module" other.typeName span)
       | none => .err (.undefinedVariable moduleName span))
    | .list elements _ => do
      let vs ← interpretExprList vresolve fuel env elements
      pure (Value.list vs)
    | .pair first second _ => do
      let firstVal ← interpretExpr vresolve fuel env first
      let secondVal ← interpretExpr vresolve fuel env second
      pure (Value.pair firstVal secondVal)
    | .binaryOp left operator right span =>
      interpretBinaryOp vresolve fuel env left operator right span
    | .unaryOp operator operand span => do
      let operandVal ← interpretExpr vresolve fuel env operand
      match operator with
      | .logicalNot =>
        match operandVal with
        | .bool b => pure (Value.bool (!b))
        | _ => EResult.err (.typeError "Bool" operandVal.typeName span)
    | .function param _ body _ => .ok (.function param body env)
    | .functionCall fn argument span =>
      interpretFunctionCall vresolve fuel env fn argument span
    | .leftInject value _ => do
      let v ← interpretExpr vresolve fuel env value
      pure (Value.leftInject v)
    | .rightInject value _ => do
      let v ← interpretExpr vresolve fuel env value
      pure (Value.rightInject v)
    | .fix fn span => do
      let funcValue ← interpretExpr vresolve fuel env fn
      match funcValue with
      | .function p b e => pure (Value.fixedPoint (.function p b e))
      | _ =>
        EResult.err (.runtimeError "Fix can only be applied to functions" (some span))
    | .block statements expr _ => do
      let env2 ← interpretStmts vresolve fuel (renvPushScope env) statements
      match expr with
      | some e => interpretExpr vresolve fuel env2 e
      | none => pure Value.unit
    | .firstProjection pairE span => do
      let pairVal ← interpretExpr vresolve fuel env pairE
      match pairVal with
      | .pair first _ => pure first
      | _ => EResult.err (.typeError "Pair" pairVal.typeName span)
    | .secondProjection pairE span => do
      let pairVal ← interpretExpr vresolve fuel env pairE
      match pairVal with
      | .pair _ second => pure second
      | _ => EResult.err (.typeError "Pair" pairVal.typeName span)
    | .cons head tail span => do
      let headVal ← interpretExpr vresolve fuel env head
      let tailVal ← interpretExpr vresolve fuel env tail
      match tailVal with
      | .list l => pure (Value.list (headVal :: l))
      | _ => EResult.err (.typeError "List" tailVal.typeName span)
    | .headProjection listE span => do
      let listVal ← interpretExpr vresolve fuel env listE
      match listVal with
      | .list [] =>
        EResult.err (.runtimeError "Cannot get head of empty list" (some span))
      | .list (x :: _) => pure x
      | _ => EResult.err (.typeError "List" listVal.typeName span)
    | .tailProjection listE span => do
      let listVal ← interpretExpr vresolve fuel env listE
      match listVal with
      | .list [] =>
        EResult.err (.runtimeError "Cannot get tail of empty list" (some span))
      | .list (_ :: rest) => pure (Value.list rest)
      | _ => EResult.err (.typeError "List" listVal.typeName span)
    | .print value _ => do
      let _ ← interpretExpr vresolve fuel env value
      pure Value.unit
    | .ifE condition thenBranch elseBranch _ => do
      let conditionVal ← interpretExpr vresolve fuel env condition
      match conditionVal with
      | .bool true => interpretExpr vresolve fuel env thenBranch
      | .bool false =>
        (match elseBranch with
         | some e => interpretExpr vresolve fuel env e
         | none => pure Value.unit)
      | _ => EResult.err (.typeError "Bool" conditionVal.typeName condition.span)
    | .forE varName iterable body _ => do
      let iterableVal ← interpretExpr vresolve fuel env iterable
      match iterableVal with
      | .list elements =>
        interpretForLoop vresolve fuel (renvPushScope env) varName elements body
      | _ => EResult.err (.typeError "List" iterableVal.typeName iterable.span)
    | .range startE stopE _ => do
      let startVal ← interpretExpr vresolve fuel env startE
      let stopVal ← interpretExpr vresolve fuel env stopE
      match startVal, stopVal with
      | .int s, .int e => pure (Value.list (rangeVals s e))
      | .int _, other => EResult.err (.typeError "Int" other.typeName stopE.span)
      | other, _ => EResult.err (.typeError "Int" other.typeName startE.span)
    | .concat left right _ => do
      let leftVal ← interpretExpr vresolve fuel env left
      let rightVal ← interpretExpr vresolve fuel env right
      match leftVal, rightVal with
      | .string s1, .string s2 => pure (Value.string (s1 ++ s2))
      | .string _, other => EResult.err (.typeError "String" other.typeName right.span)
      | other, _ => EResult.err (.typeError "String" other.typeName left.span)
    | .charAt stringE index span => do
      let stringVal ← interpretExpr vresolve fuel env stringE
      let indexVal ← interpretExpr vresolve fuel env index
      match stringVal, indexVal with
      | .string s, .int i =>
        if i < 0 then
          EResult.err (.runtimeError "String index cannot be negative" (some span))
        else
          let chars := s.toList
          let idx := i.toNat
          if idx < chars.length then
            pure (Value.string (String.singleton (chars.getD idx ' ')))
          else
            EResult.err (.runtimeError
              ("String index " ++ toString i ++ " out of bounds (length " ++
                toString chars.length ++ ")") (some span))
      | .string _, other => EResult.err (.typeError "Int" other.typeName index.span)
      | other, _ => EResult.err (.typeError "String" other.typeName stringE.span)
    | .length stringE _ => do
      let stringVal ← interpretExpr vresolve fuel env stringE
      match stringVal with
      | .string s => pure (Value.int (s.length : Int))
      | _ => EResult.err (.typeError "String" stringVal.typeName stringE.span)
    | .toStringE expr _ => do
      let v ← interpretExpr vresolve fuel env expr
      pure (Value.string (valueToString v))
    | .typeOf expr _ => do
      let v ← interpretExpr vresolve fuel env expr
      pure (Value.string (valueToTypeString v))
    | .caseE expr leftPat leftBody rightPat rightBody span => do
      let v ← interpretExpr vresolve fuel env expr
      match v with
      | .leftInject inner =>
        interpretExpr vresolve fuel (renvBind (renvPushScope env) leftPat inner) leftBody
      | .rightInject inner =>
        interpretExpr vresolve fuel (renvBind (renvPushScope env) rightPat inner) rightBody
      | _ => EResult.err (.typeError "Sum Type" v.typeName span)

/-- The element fold of the list-literal arm of
`Interpreter::interpret_expression`. -/
def interpretExprList (vresolve : RModuleResolver) :
    Nat → REnv → List Expression → EResult (List Value)
  | 0, _, _ => .out
  | _ + 1, _, [] => .ok []
  | fuel + 1, env, e :: rest => do
    let v ← interpretExpr vresolve fuel env e
    let vs ← interpretExprList vresolve fuel env rest
    pure (v :: vs)

/-- `Interpreter::interpret_binary_op`: evaluate both operands
(left-to-right, no short-circuiting), then dispatch on the operator. -/
def interpretBinaryOp (vresolve : RModuleResolver) :
    Nat → REnv → Expression → BinaryOperator → Expression → Span → EResult Value
  | 0, _, _, _, _, _ => .out
  | fuel + 1, env, left, operator, right, span => do
    let leftVal ← interpretExpr vresolve fuel env left
    let rightVal ← interpretExpr vresolve fuel env right
    match binaryOpValues operator leftVal rightVal span with
    | .ok v => pure v
    | .error e => EResult.err e

/-- `Interpreter::interpret_function_call`. -/
def interpretFunctionCall (vresolve : RModuleResolver) :
    Nat → REnv → Expression → Expression → Span → EResult Value
  | 0, _, _, _, _ => .out
  | fuel + 1, env, fn, argument, span => do
    let funcVal ← interpretExpr vresolve fuel env fn
    let argVal ← interpretExpr vresolve fuel env argument
    match funcVal with
    | .function param body fenv =>
      interpretExpr vresolve fuel (renvBind (renvPushScope fenv) param argVal) body
    | .fixedPoint inner =>
      (match inner with
       | .function param body fenv => do
         let callEnv := renvBind (renvPushScope fenv) param (Value.fixedPoint inner)
         let innerFunc ← interpretExpr vresolve fuel callEnv body
         match innerFunc with
         | .function innerParam innerBody innerEnv =>
           interpretExpr vresolve fuel
             (renvBind (renvPushScope innerEnv) innerParam argVal) innerBody
         | _ =>
           EResult.err (.runtimeError
             "Fixed point function body must return a function" (some span))
       | _ => EResult.err (.runtimeError "Invalid fixed point function" (some span)))
    | _ => EResult.err (.notCallable span)

/-- `Interpreter::interpret_statement`: returns the statement's value
and the updated environment. -/
def interpretStmt (vresolve : RModuleResolver) :
    Nat → REnv → Statement → EResult (Value × REnv)
  | 0, _, _ => .out
  | fuel + 1, env, st =>
    match st with
    | .variableDeclaration name _ value _ => do
      let v ← interpretExpr vresolve fuel env value
      pure (Value.unit, renvBind env name v)
    | .functionDeclaration name param _ _ body _ =>
      let recursiveFunction :=
        Value.function name (.function param none body body.span) env
      .ok (Value.unit, renvBind env name (Value.fixedPoint recursiveFunction))
    | .importStatement path aliasName span =>
      let importName := aliasName.getD path
      (match vresolve path with
       | some exports =>
         .ok (Value.unit, renvBind env importName (.module importName exports))
       | none =>
         .err (.runtimeError ("Failed to read module file: " ++ path) (some span)))
    | .expression expr _ => do
      let v ← interpretExpr vresolve fuel env expr
      pure (v, env)

/-- The statement fold of the block arm of
`Interpreter::interpret_expression` (values are discarded; the block
interpreter's environment is threaded). -/
def interpretStmts (vresolve : RModuleResolver) :
    Nat → REnv → List Statement → EResult REnv
  | 0, _, _ => .out
  | _ + 1, env, [] => .ok env
  | fuel + 1, env, st :: rest => do
    let (_, env') ← interpretStmt vresolve fuel env st
    interpretStmts vresolve fuel env' rest

/-- The iteration loop of the `For` arm of
`Interpreter::interpret_expression`: bind the loop variable to each
element in turn and evaluate the body, discarding its result. -/
def interpretForLoop (vresolve : RModuleResolver) :
    Nat → REnv → String → List Value → Expression → EResult Value
  | 0, _, _, _, _ => .out
  | _ + 1, _, _, [], _ => .ok Value.unit
  | fuel + 1, env, varName, v :: rest, body => do
    let env' := renvBind env varName v
    let _ ← interpretExpr vresolve fuel env' body
    interpretForLoop vresolve fuel env' varName rest body

end

/-- The statement fold shared by `Interpreter::interpret_program` and
`Interpreter::interpret_program_repl`, tracking the last statement's
value. -/
def interpretProgramFold (vresolve : RModuleResolver) (fuel : Nat) :
    REnv → Value → List Statement → EResult (Value × REnv)
  | env, lastVal, [] => .ok (lastVal, env)
  | env, _, st :: rest =>
    match interpretStmt vresolve fuel env st with
    | .ok (v, env') => interpretProgramFold vresolve fuel env' v rest
    | .err e => .err e
    | .out => .out

/-- `Interpreter::new` followed by `Interpreter::interpret_program`:
run every statement and return `Unit`. -/
def interpretProgram (vresolve : RModuleResolver) (fuel : Nat) (program : Program) :
    EResult Value :=
  match interpretProgramFold vresolve fuel renvNew Value.unit program.statements with
  | .ok _ => .ok Value.unit
  | .err e => .err e
  | .out => .out

/-- `Interpreter::new` followed by
`Interpreter::interpret_program_repl`: run every statement and return
the last statement's value (`Unit` for an empty program). -/
def interpretProgramRepl (vresolve : RModuleResolver) (fuel : Nat) (program : Program) :
    EResult Value :=
  match interpretProgramFold vresolve fuel renvNew Value.unit program.statements with
  | .ok (v, _) => .ok v
  | .err e => .err e
  | .out => .out

/-- A runtime resolver for programs without imports. -/
def noValueModules : RModuleResolver := fun _ => none

/-!  Theorems settling the claims. -/

/-- The element map of `value_to_string` agrees with `List.map`. -/
theorem valueToStringList_eq_map :
    ∀ vs : List Value, valueToStringList vs = vs.map valueToString
  | [] => rfl
  | v :: rest => by
    simp [valueToStringList, valueToStringList_eq_map rest]

/-- C5 counterexample: `value_to_string` renders a fixed-point value as
`<fixed-point>`, not `<recursive>` as the claim states. -/
theorem c5_counterexample :
    valueToString (.fixedPoint (.int 0)) = "<fixed-point>" ∧
      valueToString (.fixedPoint (.int 0)) ≠ "<recursive>" := by
  constructor
  · rfl
  · decide

/-- C5 (amended): `value_to_string` produces the stable textual form of
every value variant: decimal for integers, `true`/`false` for booleans,
the verbatim unquoted text for strings, `[a, b, c]` for lists, `(a, b)`
for pairs, `<function>` for closures, `inl(v)`/`inr(v)` for sum
injections, `<fixed-point>` (not `<recursive>`) for fixed-point values,
and `<module NAME>` for modules. -/
theorem c5_theorem :
    (∀ i : Int, valueToString (.int i) = toString i) ∧
    valueToString (.bool true) = "true" ∧
    valueToString (.bool false) = "false" ∧
    (∀ s : String, valueToString (.string s) = s) ∧
    valueToString .unit = "()" ∧
    (∀ vs : List Value,
      valueToString (.list vs) =
        "[" ++ String.intercalate ", " (vs.map valueToString) ++ "]") ∧
    (∀ a b : Value,
      valueToString (.pair a b) = "(" ++ valueToString a ++ ", " ++ valueToString b ++ ")") ∧
    (∀ p body env, valueToString (.function p body env) = "<function>") ∧
    (∀ v : Value, valueToString (.leftInject v) = "inl(" ++ valueToString v ++ ")") ∧
    (∀ v : Value, valueToString (.rightInject v) = "inr(" ++ valueToString v ++ ")") ∧
    (∀ v : Value, valueToString (.fixedPoint v) = "<fixed-point>") ∧
    (∀ name exports, valueToString (.module name exports) = "<module " ++ name ++ ">") := by
  refine ⟨fun i => rfl, rfl, rfl, fun s => rfl, rfl, fun vs => ?_, fun a b => rfl,
    fun p body env => rfl, fun v => rfl, fun v => rfl, fun v => rfl,
    fun name exports => rfl⟩
  simp [valueToString, valueToStringList_eq_map]

/-- Concrete-input helper: a token whose span covers byte `i` on line 1.
Used to build small token buffers the way the lexer would. -/
def tok (t : Token) (i : Nat) : TokenWithSpan := ⟨t, Span.new i (i + 1) 1 (i + 1)⟩

/-- Token buffer for the program `print(1 / 0);`. -/
def c8Tokens : List TokenWithSpan :=
  [tok .printKw 0, tok .leftParen 1, tok (.number 1) 2, tok .divide 3, tok (.number 0) 4,
   tok .rightParen 5, tok .semicolon 6, tok .eof 7]

/-- The AST of `print(1 / 0);` as the parser produces it. -/
def c8Program : Program :=
  ⟨[.expression
      (.print
        (.binaryOp (.number 1 (Span.new 2 3 1 3)) .divide (.number 0 (Span.new 4 5 1 5))
          (Span.new 2 5 1 3))
        (Span.new 0 6 1 1))
      (Span.new 0 6 1 1)],
    Span.new 0 7 1 1⟩

/-- The parser state after consuming `print(1 / 0);`. -/
def c8FinalState : ParserS := { tokens := c8Tokens, current := 7 }

/-- The typed AST of `print(1 / 0);`. -/
def c8Typed : TypedProgram :=
  ⟨[.expression ⟨.unit, Span.new 0 6 1 1⟩ (Span.new 0 6 1 1)], Span.new 0 7 1 1⟩

/-- C8: dividing integer values reports a division-by-zero error
carrying the binary-operation node's span exactly when the divisor is 0,
and otherwise yields the truncated quotient; in particular the program
`print(1 / 0);` parses, type-checks, and evaluation stops with the
division-by-zero error at the span of `1 / 0`. -/
theorem c8_theorem :
    (∀ (l r : Int) (span : Span),
      binaryOpValues .divide (.int l) (.int r) span =
        if r = 0 then .error (.divisionByZero span)
        else .ok (.int (Int.tdiv l r))) ∧
    runParse c8Tokens 30 = .ok c8Program c8FinalState ∧
    checkProgram noModules c8Program = .ok c8Typed ∧
    interpretProgram noValueModules 30 c8Program =
      .err (.divisionByZero (Span.new 2 5 1 3)) := by
  refine ⟨fun l r span => rfl, rfl, rfl, rfl⟩

/-- C9: evaluating `==` or `!=` on any two runtime values never
produces an error: the result is always a boolean computed by deep
structural equality (closures included, compared by parameter, deep
body equality and deep captured-environment equality), and two values
of different variants always compare unequal. -/
theorem c9_theorem :
    (∀ (l r : Value) (span : Span),
      binaryOpValues .equal l r span = .ok (.bool (valueBeq l r)) ∧
        binaryOpValues .notEqual l r span = .ok (.bool (!valueBeq l r))) ∧
    (∀ l r : Value, l.typeName ≠ r.typeName → valueBeq l r = false) ∧
    (∀ a b : Int, valueBeq (.int a) (.int b) = (a == b)) ∧
    (∀ a b : Bool, valueBeq (.bool a) (.bool b) = (a == b)) ∧
    (∀ a b : String, valueBeq (.string a) (.string b) = (a == b)) ∧
    valueBeq .unit .unit = true ∧
    (∀ a1 a2 b1 b2 : Value,
      valueBeq (.pair a1 a2) (.pair b1 b2) = (valueBeq a1 b1 && valueBeq a2 b2)) ∧
    (∀ a b : Value, ∀ as_ bs : List Value,
      valueBeq (.list (a :: as_)) (.list (b :: bs)) =
        (valueBeq a b && valueBeq (.list as_) (.list bs))) ∧
    (∀ p1 b1 e1 p2 b2 e2,
      valueBeq (.function p1 b1 e1) (.function p2 b2 e2) =
        (p1 == p2 && exprBeq b1 b2 && renvBeq e1 e2)) ∧
    (∀ a b : Value, valueBeq (.leftInject a) (.leftInject b) = valueBeq a b) ∧
    (∀ a b : Value, valueBeq (.rightInject a) (.rightInject b) = valueBeq a b) ∧
    (∀ a b : Value, valueBeq (.fixedPoint a) (.fixedPoint b) = valueBeq a b) := by
  refine ⟨fun l r span => ⟨rfl, rfl⟩, ?_, fun a b => by simp [valueBeq],
    fun a b => by simp [valueBeq], fun a b => by simp [valueBeq],
    by simp [valueBeq], fun a1 a2 b1 b2 => by simp [valueBeq],
    fun a b as_ bs => by simp [valueBeq, valueListBeq],
    fun p1 b1 e1 p2 b2 e2 => by simp [valueBeq], fun a b => by simp [valueBeq],
    fun a b => by simp [valueBeq], fun a b => by simp [valueBeq]⟩
  intro l r h
  cases l <;> cases r <;> simp [valueBeq] <;> simp [Value.typeName] at h

/-- C9 witness: instantiating the cross-variant inequality at `Int 0`
and `Unit`. -/
theorem c9_witness :
    (Value.int 0).typeName ≠ Value.unit.typeName ∧ valueBeq (.int 0) .unit = false :=
  ⟨by decide, c9_theorem.2.1 (.int 0) .unit (by decide)⟩

/-- Destructuring successful `Except` binds. -/
theorem exceptBind_ok {ε α β : Type} {x : Except ε α} {f : α → Except ε β} {b : β}
    (h : (x >>= f) = .ok b) : ∃ a, x = .ok a ∧ f a = .ok b := by
  cases x with
  | ok a => exact ⟨a, rfl, h⟩
  | error e => simp [Bind.bind, Except.bind] at h

/-- The statement `fn f(x: Int) -> Int { f(x) }` at the AST level (the
body is the recursive call `f(x)`). -/
def c1RecFnDecl : Statement :=
  .functionDeclaration "f" "x" (some (.int (Span.new 8 11 1 9)))
    (some (.int (Span.new 16 19 1 17)))
    (.functionCall (.identifier "f" (Span.new 22 23 1 23)) (.identifier "x" (Span.new 24 25 1 25))
      (Span.new 22 26 1 23))
    (Span.new 0 28 1 1)

/-- C1 counterexample: type-checking the recursive function declaration
`fn f(x: Int) -> Int { f(x) }` in an empty environment reports
`UndefinedVariable "f"` — the checker does not bind the function's name
before checking the body. -/
theorem c1_counterexample :
    checkProgram noModules ⟨[c1RecFnDecl], Span.new 0 28 1 1⟩ =
      .error (.undefinedVariable "f" (Span.new 22 23 1 23)) := rfl

/-- C1 (amended): for a function declaration statement the checker
enters a fresh scope and binds only the parameter before checking the
body; the function's name is bound — to the function type built from
the annotations and the checked body — only after the body has been
checked, so an occurrence of the function's own name inside the body of
a recursive function is reported as `UndefinedVariable` (when the name
is not bound in an enclosing scope). -/
theorem c1_theorem (name param : String) (tsp1 tsp2 bspan sspan : Span)
    (hne : param ≠ name) :
    checkStatement noModules ⟨TCEnv.new, []⟩
        (.functionDeclaration name param (some (.int tsp1)) (some (.int tsp2))
          (.identifier name bspan) sspan) =
      .error (.undefinedVariable name bspan) ∧
    checkStatement noModules ⟨TCEnv.new, []⟩
        (.functionDeclaration name param (some (.int tsp1)) (some (.int tsp2))
          (.number 0 bspan) sspan) =
      .ok (.functionDeclaration name param .int .int ⟨.int, bspan⟩ sspan,
        ⟨TCEnv.mk [(name, .function .int .int)] none, []⟩) := by
  have hbe : (param == name) = false := beq_eq_false_iff_ne.mpr hne
  constructor
  · have hstep : checkExpression noModules
        { env := TCEnv.mk [(param, Ty.int)] (some (TCEnv.mk [] none)), modules := [] }
        (.identifier name bspan) =
        (match TCEnv.lookup (TCEnv.mk [(param, Ty.int)] (some (TCEnv.mk [] none))) name with
         | some ty => Except.ok (TypedExpression.new ty bspan)
         | none => Except.error (.undefinedVariable name bspan)) := rfl
    have hnone :
        TCEnv.lookup (TCEnv.mk [(param, Ty.int)] (some (TCEnv.mk [] none))) name = none := by
      simp [TCEnv.lookup, lookupAssoc, List.find?, hbe]
    have hlook : checkExpression noModules
        { env := TCEnv.mk [(param, Ty.int)] (some (TCEnv.mk [] none)), modules := [] }
        (.identifier name bspan) = .error (.undefinedVariable name bspan) := by
      rw [hstep, hnone]
    simp only [checkStatement, convertTypeExpression, TCEnv.new, TCEnv.enterScope,
      TCEnv.bind, TCEnv.isBoundLocally, lookupAssoc, insertAssoc, List.filter,
      List.find?, Bind.bind, Except.bind, hlook]
    rfl
  · rfl

/-- C1 witness: instantiating the amended statement at `f`, `x` and
concrete spans. -/
theorem c1_witness :
    ("x" : String) ≠ "f" ∧
      (checkStatement noModules ⟨TCEnv.new, []⟩
          (.functionDeclaration "f" "x" (some (.int (Span.new 8 11 1 9)))
            (some (.int (Span.new 16 19 1 17)))
            (.identifier "f" (Span.new 22 23 1 23)) (Span.new 0 28 1 1)) =
        .error (.undefinedVariable "f" (Span.new 22 23 1 23)) ∧
      checkStatement noModules ⟨TCEnv.new, []⟩
          (.functionDeclaration "f" "x" (some (.int (Span.new 8 11 1 9)))
            (some (.int (Span.new 16 19 1 17)))
            (.number 0 (Span.new 22 23 1 23)) (Span.new 0 28 1 1)) =
        .ok (.functionDeclaration "f" "x" .int .int ⟨.int, Span.new 22 23 1 23⟩
            (Span.new 0 28 1 1),
          ⟨TCEnv.mk [("f", .function .int .int)] none, []⟩)) :=
  ⟨by decide,
    c1_theorem "f" "x" (Span.new 8 11 1 9) (Span.new 16 19 1 17) (Span.new 22 23 1 23)
      (Span.new 0 28 1 1) (by decide)⟩

/-- Number of immediate AST children (subexpressions, substatements) of
an expression node, read off the `Expression` enum of ast/nodes.rs. -/
def exprChildCount : Expression → Nat
  | .identifier _ _ => 0
  | .qualifiedIdentifier _ _ _ => 0
  | .number _ _ => 0
  | .boolean _ _ => 0
  | .string _ _ => 0
  | .binaryOp _ _ _ _ => 2
  | .unaryOp _ _ _ => 1
  | .function _ _ _ _ => 1
  | .functionCall _ _ _ => 2
  | .list es _ => es.length
  | .pair _ _ _ => 2
  | .leftInject _ _ => 1
  | .rightInject _ _ => 1
  | .fix _ _ => 1
  | .block sts e _ => sts.length + (match e with | some _ => 1 | none => 0)
  | .firstProjection _ _ => 1
  | .secondProjection _ _ => 1
  | .cons _ _ _ => 2
  | .headProjection _ _ => 1
  | .tailProjection _ _ => 1
  | .print _ _ => 1
  | .ifE _ _ e _ => 2 + (match e with | some _ => 1 | none => 0)
  | .forE _ _ _ _ => 2
  | .range _ _ _ => 2
  | .concat _ _ _ => 2
  | .charAt _ _ _ => 2
  | .length _ _ => 1
  | .toStringE _ _ => 1
  | .typeOf _ _ => 1
  | .caseE _ _ _ _ _ _ => 3

/-- Number of child nodes of a `TypedExpression`: the struct in
typechecker/types.rs carries only a type and a span, so every typed
expression node has zero children. -/
def typedExprChildCount (_ : TypedExpression) : Nat := 0

/-- The program `1 + 2;`. -/
def c3Program : Program :=
  ⟨[.expression
      (.binaryOp (.number 1 (Span.new 0 1 1 1)) .add (.number 2 (Span.new 4 5 1 5))
        (Span.new 0 5 1 1))
      (Span.new 0 5 1 1)],
    Span.new 0 6 1 1⟩

/-- The typed AST the checker produces for `1 + 2;`. -/
def c3Typed : TypedProgram :=
  ⟨[.expression ⟨.int, Span.new 0 5 1 1⟩ (Span.new 0 5 1 1)], Span.new 0 6 1 1⟩

/-- C3 counterexample: the program `1 + 2;` type-checks successfully,
its source expression `1 + 2` has two children, but the corresponding
typed expression node has none — the typed tree does not mirror the
source tree node-for-node. -/
theorem c3_counterexample :
    checkProgram noModules c3Program = .ok c3Typed ∧
    exprChildCount
        (.binaryOp (.number 1 (Span.new 0 1 1 1)) .add (.number 2 (Span.new 4 5 1 5))
          (Span.new 0 5 1 1)) = 2 ∧
    typedExprChildCount ⟨.int, Span.new 0 5 1 1⟩ = 0 ∧
    (2 : Nat) ≠ 0 :=
  ⟨rfl, rfl, rfl, by decide⟩

/-- Constructor index of a statement. -/
def stmtKind : Statement → Nat
  | .variableDeclaration _ _ _ _ => 0
  | .functionDeclaration _ _ _ _ _ _ => 1
  | .importStatement _ _ _ => 2
  | .expression _ _ => 3

/-- Constructor index of a typed statement (same numbering as
`stmtKind`). -/
def typedStmtKind : TypedStatement → Nat
  | .variableDeclaration _ _ _ _ => 0
  | .functionDeclaration _ _ _ _ _ _ => 1
  | .importStatement _ _ _ => 2
  | .expression _ _ => 3

/-- A successfully checked statement yields a typed statement of the
same constructor. -/
theorem checkStatement_kind (resolve : ModuleResolver) (ctx : TCCtx) (st : Statement)
    (ts : TypedStatement) (ctx' : TCCtx)
    (h : checkStatement resolve ctx st = .ok (ts, ctx')) :
    typedStmtKind ts = stmtKind st := by
  cases st with
  | variableDeclaration name annot value span =>
    by_cases hb : ctx.env.isBoundLocally name
    · simp [checkStatement, hb] at h
    · simp only [checkStatement, hb, Bool.false_eq_true, if_false, if_neg] at h
      obtain ⟨tv, _, h⟩ := exceptBind_ok h
      obtain ⟨ft, _, h⟩ := exceptBind_ok h
      simp only [pure, Except.pure, Except.ok.injEq, Prod.mk.injEq] at h
      rw [← h.1]
      rfl
  | functionDeclaration name param paramType returnType body span =>
    by_cases hb : ctx.env.isBoundLocally name
    · simp [checkStatement, hb] at h
    · simp only [checkStatement, hb, Bool.false_eq_true, if_false, if_neg] at h
      obtain ⟨ert, _, h⟩ := exceptBind_ok h
      obtain ⟨pt, _, h⟩ := exceptBind_ok h
      obtain ⟨tb, _, h⟩ := exceptBind_ok h
      obtain ⟨frt, _, h⟩ := exceptBind_ok h
      simp only [pure, Except.pure, Except.ok.injEq, Prod.mk.injEq] at h
      rw [← h.1]
      rfl
  | importStatement path aliasName span =>
    simp only [checkStatement] at h
    cases hres : resolve path with
    | some exports =>
      rw [hres] at h
      simp only [Except.ok.injEq, Prod.mk.injEq] at h
      rw [← h.1]
      rfl
    | none => rw [hres] at h; simp at h
  | expression expr span =>
    simp only [checkStatement] at h
    obtain ⟨te, _, h⟩ := exceptBind_ok h
    simp only [pure, Except.pure, Except.ok.injEq, Prod.mk.injEq] at h
    rw [← h.1]
    rfl

/-- The statement fold preserves statement constructors. -/
theorem checkProgramFold_kinds (resolve : ModuleResolver) :
    ∀ (stmts : List Statement) (ctx : TCCtx) (l : List TypedStatement) (ctx' : TCCtx),
      checkProgramFold resolve ctx stmts = .ok (l, ctx') →
      l.map typedStmtKind = stmts.map stmtKind
  | [], ctx, l, ctx', h => by
    simp only [checkProgramFold, Except.ok.injEq, Prod.mk.injEq] at h
    rw [← h.1]
    rfl
  | st :: rest, ctx, l, ctx', h => by
    simp only [checkProgramFold] at h
    obtain ⟨⟨ts, ctx1⟩, h1, h⟩ := exceptBind_ok h
    obtain ⟨⟨restTyped, ctx2⟩, h2, h⟩ := exceptBind_ok h
    simp only [pure, Except.pure, Except.ok.injEq, Prod.mk.injEq] at h
    rw [← h.1]
    simp only [List.map_cons]
    rw [checkStatement_kind resolve ctx st ts ctx1 h1,
      checkProgramFold_kinds resolve rest ctx1 restTyped ctx2 h2]

/-- C3 (amended): the typed AST mirrors the program only at statement
granularity: a successful `check_program` returns exactly one typed
statement per source statement, in order and of the corresponding
constructor, and keeps the program span; typed expression nodes carry
only a type and a span and retain no children (see the
counterexample). -/
theorem c3_theorem (resolve : ModuleResolver) (p : Program) (tp : TypedProgram)
    (h : checkProgram resolve p = .ok tp) :
    tp.statements.map typedStmtKind = p.statements.map stmtKind ∧ tp.span = p.span := by
  unfold checkProgram at h
  obtain ⟨⟨l, ctxF⟩, hf, h⟩ := exceptBind_ok h
  simp only [pure, Except.pure, Except.ok.injEq] at h
  constructor
  · rw [← h]
    exact checkProgramFold_kinds resolve p.statements _ l ctxF hf
  · rw [← h]

/-- C3 witness: instantiating the statement-level mirror at the checked
program `1 + 2;`. -/
theorem c3_witness :
    checkProgram noModules c3Program = .ok c3Typed ∧
      (c3Typed.statements.map typedStmtKind = c3Program.statements.map stmtKind ∧
        c3Typed.span = c3Program.span) :=
  ⟨rfl, c3_theorem noModules c3Program c3Typed rfl⟩

/-- Token buffer for the statement `a(b)(c);`. -/
def c2AppTokens : List TokenWithSpan :=
  [tok (.identifier "a") 0, tok .leftParen 1, tok (.identifier "b") 2, tok .rightParen 3,
   tok .leftParen 4, tok (.identifier "c") 5, tok .rightParen 6, tok .semicolon 7, tok .eof 8]

/-- The left-nested application `(a(b))(c)` as a parsed program. -/
def c2AppProgram : Program :=
  ⟨[.expression
      (.functionCall
        (.functionCall (.identifier "a" (Span.new 0 1 1 1)) (.identifier "b" (Span.new 2 3 1 3))
          (Span.new 0 4 1 1))
        (.identifier "c" (Span.new 5 6 1 6)) (Span.new 0 7 1 1))
      (Span.new 0 7 1 1)],
    Span.new 0 8 1 1⟩

/-- Token buffer for the statement `a(b) ⊕ c;`, for a binary-operator
token ⊕. -/
def c2BinTokens (t : Token) : List TokenWithSpan :=
  [tok (.identifier "a") 0, tok .leftParen 1, tok (.identifier "b") 2, tok .rightParen 3,
   tok t 4, tok (.identifier "c") 5, tok .semicolon 6, tok .eof 7]

/-- The parse of `a(b) ⊕ c;`: the application is completed before the
binary operator is considered. -/
def c2BinProgram (op : BinaryOperator) : Program :=
  ⟨[.expression
      (.binaryOp
        (.functionCall (.identifier "a" (Span.new 0 1 1 1)) (.identifier "b" (Span.new 2 3 1 3))
          (Span.new 0 4 1 1))
        op (.identifier "c" (Span.new 5 6 1 6)) (Span.new 0 6 1 1))
      (Span.new 0 6 1 1)],
    Span.new 0 7 1 1⟩

/-- C2: function application parses as postfix juxtaposition binding
tighter than every binary operator: an atom immediately followed by `(`
consumes one argument and `)` and the result is the applicand for
further applications, so `a(b)(c);` parses into the left-nested
application `(a(b))(c)`, and for every binary operator ⊕ the statement
`a(b) ⊕ c;` parses the application before the operator. -/
theorem c2_theorem :
    runParse c2AppTokens 30 = .ok c2AppProgram { tokens := c2AppTokens, current := 8 } ∧
    (∀ (t : Token) (p : Nat) (op : BinaryOperator), getBinaryOperator t = some (p, op) →
      runParse (c2BinTokens t) 30 =
        .ok (c2BinProgram op) { tokens := c2BinTokens t, current := 7 }) := by
  refine ⟨rfl, ?_⟩
  intro t p op h
  cases t <;> simp [getBinaryOperator] at h <;> obtain ⟨rfl, rfl⟩ := h <;> rfl

/-- C2 witness: instantiating the tighter-than-binary clause at `+`. -/
theorem c2_witness :
    getBinaryOperator .plus = some (10, .add) ∧
      runParse (c2BinTokens .plus) 30 =
        .ok (c2BinProgram .add) { tokens := c2BinTokens .plus, current := 7 } :=
  ⟨rfl, c2_theorem.2 .plus 10 .add rfl⟩

/-- Token buffer for the statement `a ⊕ b ⊕ c;`, for a binary-operator
token ⊕. -/
def c4ChainTokens (t : Token) : List TokenWithSpan :=
  [tok (.identifier "a") 0, tok t 1, tok (.identifier "b") 2, tok t 3,
   tok (.identifier "c") 4, tok .semicolon 5, tok .eof 6]

/-- The left-nested parse `(a ⊕ b) ⊕ c`. -/
def c4ChainProgram (op : BinaryOperator) : Program :=
  ⟨[.expression
      (.binaryOp
        (.binaryOp (.identifier "a" (Span.new 0 1 1 1)) op (.identifier "b" (Span.new 2 3 1 3))
          (Span.new 0 3 1 1))
        op (.identifier "c" (Span.new 4 5 1 5)) (Span.new 0 5 1 1))
      (Span.new 0 5 1 1)],
    Span.new 0 6 1 1⟩

/-- Token buffer for `a ⊕ b ⊗ c;` with two distinct operator tokens. -/
def c4MixTokens (t1 t2 : Token) : List TokenWithSpan :=
  [tok (.identifier "a") 0, tok t1 1, tok (.identifier "b") 2, tok t2 3,
   tok (.identifier "c") 4, tok .semicolon 5, tok .eof 6]

/-- The right-nested parse `a ⊕ (b ⊗ c)` (the second operator binds
tighter). -/
def c4RightProgram (op1 op2 : BinaryOperator) : Program :=
  ⟨[.expression
      (.binaryOp (.identifier "a" (Span.new 0 1 1 1)) op1
        (.binaryOp (.identifier "b" (Span.new 2 3 1 3)) op2 (.identifier "c" (Span.new 4 5 1 5))
          (Span.new 2 5 1 3))
        (Span.new 0 5 1 1))
      (Span.new 0 5 1 1)],
    Span.new 0 6 1 1⟩

/-- C4: the parser's binary-expression parsing is precedence climbing
over the fixed table `*`,`/` = 20; `+`,`-` = 10; comparisons = 5;
`&&` = 3; `||` = 2 (higher binds tighter), and every operator is
left-associative: `a ⊕ b ⊕ c` parses as `(a ⊕ b) ⊕ c` for each operator
⊕; a tighter operator to the right groups first (`a + b * c` parses as
`a + (b * c)`, `a == b && c` as `(a == b) && c`). -/
theorem c4_theorem :
    getBinaryOperator .plus = some (10, .add) ∧
    getBinaryOperator .minus = some (10, .subtract) ∧
    getBinaryOperator .multiply = some (20, .multiply) ∧
    getBinaryOperator .divide = some (20, .divide) ∧
    getBinaryOperator .equal = some (5, .equal) ∧
    getBinaryOperator .notEqual = some (5, .notEqual) ∧
    getBinaryOperator .lessThan = some (5, .lessThan) ∧
    getBinaryOperator .lessThanEqual = some (5, .lessThanEqual) ∧
    getBinaryOperator .greaterThan = some (5, .greaterThan) ∧
    getBinaryOperator .greaterThanEqual = some (5, .greaterThanEqual) ∧
    getBinaryOperator .logicalAnd = some (3, .logicalAnd) ∧
    getBinaryOperator .logicalOr = some (2, .logicalOr) ∧
    (∀ (t : Token) (p : Nat) (op : BinaryOperator), getBinaryOperator t = some (p, op) →
      runParse (c4ChainTokens t) 30 =
        .ok (c4ChainProgram op) { tokens := c4ChainTokens t, current := 6 }) ∧
    runParse (c4MixTokens .plus .multiply) 30 =
      .ok (c4RightProgram .add .multiply)
        { tokens := c4MixTokens .plus .multiply, current := 6 } ∧
    runParse (c4MixTokens .logicalAnd .equal) 30 =
      .ok (c4RightProgram .logicalAnd .equal)
        { tokens := c4MixTokens .logicalAnd .equal, current := 6 } := by
  refine ⟨rfl, rfl, rfl, rfl, rfl, rfl, rfl, rfl, rfl, rfl, rfl, rfl, ?_, rfl, rfl⟩
  intro t p op h
  cases t <;> simp [getBinaryOperator] at h <;> obtain ⟨rfl, rfl⟩ := h <;> rfl

/-- C4 witness: instantiating the left-associativity clause at `-` and
at `||` (the claim's two examples: `a - b - c` parses as `(a - b) - c`
and `a || b || c` as `(a || b) || c`). -/
theorem c4_witness :
    (getBinaryOperator .minus = some (10, .subtract) ∧
      runParse (c4ChainTokens .minus) 30 =
        .ok (c4ChainProgram .subtract) { tokens := c4ChainTokens .minus, current := 6 }) ∧
    (getBinaryOperator .logicalOr = some (2, .logicalOr) ∧
      runParse (c4ChainTokens .logicalOr) 30 =
        .ok (c4ChainProgram .logicalOr) { tokens := c4ChainTokens .logicalOr, current := 6 }) :=
  ⟨⟨rfl, c4_theorem.2.2.2.2.2.2.2.2.2.2.2.2.1 .minus 10 .subtract rfl⟩,
    ⟨rfl, c4_theorem.2.2.2.2.2.2.2.2.2.2.2.2.1 .logicalOr 2 .logicalOr rfl⟩⟩

/-- Length of the range-loop output. -/
theorem rangeValsAux_length : ∀ (n : Nat) (s : Int), (rangeValsAux s n).length = n
  | 0, _ => rfl
  | n + 1, s => by simp [rangeValsAux, rangeValsAux_length n (s + 1)]

/-- Elements of the range-loop output are consecutive integers. -/
theorem rangeValsAux_getD :
    ∀ (n : Nat) (s : Int) (i : Nat), i < n →
      (rangeValsAux s n).getD i (Value.int 0) = .int (s + i)
  | 0, _, i, hi => absurd hi (Nat.not_lt_zero i)
  | n + 1, s, 0, _ => by simp [rangeValsAux]
  | n + 1, s, i + 1, hi => by
    have ih := rangeValsAux_getD n (s + 1) i (by omega)
    simp only [rangeValsAux, List.getD_cons_succ, ih]
    congr 1
    push_cast
    ring

/-- C7: `range(a, b)` evaluates to the list `[a, a+1, …, b-1]`: its
length is `max 0 (b - a)`, its `i`-th element is `a + i`, it is empty
whenever `a ≥ b`, and the evaluator's `Range` arm returns exactly this
list for integer operands. -/
theorem c7_theorem :
    (∀ a b : Int, ((rangeVals a b).length : Int) = max 0 (b - a)) ∧
    (∀ (a b : Int) (i : Nat), i < (rangeVals a b).length →
      (rangeVals a b).getD i (Value.int 0) = .int (a + i)) ∧
    (∀ a b : Int, a ≥ b → rangeVals a b = []) ∧
    (∀ (vresolve : RModuleResolver) (env : REnv) (a b : Int) (s1 s2 s3 : Span),
      interpretExpr vresolve 2 env (.range (.number a s1) (.number b s2) s3) =
        .ok (.list (rangeVals a b))) := by
  refine ⟨fun a b => ?_, fun a b i hi => ?_, fun a b hab => ?_,
    fun vresolve env a b s1 s2 s3 => rfl⟩
  · rw [rangeVals, rangeValsAux_length]
    omega
  · rw [rangeVals] at hi ⊢
    rw [rangeValsAux_length] at hi
    exact rangeValsAux_getD _ a i hi
  · rw [rangeVals]
    have : (b - a).toNat = 0 := by omega
    rw [this]
    rfl

/-- C7 witness: `range(2, 5)` is `[2, 3, 4]` — length 3 = max 0 (5-2),
element 1 is 3, and `range(5, 2)` is empty. -/
theorem c7_witness :
    (1 < (rangeVals 2 5).length ∧ (rangeVals 2 5).getD 1 (Value.int 0) = .int (2 + 1)) ∧
      ((5 : Int) ≥ 2 ∧ rangeVals 5 2 = []) :=
  ⟨⟨by decide, c7_theorem.2.1 2 5 1 (by decide)⟩, ⟨by decide, c7_theorem.2.2.1 5 2 (by decide)⟩⟩

/-- The composition the roundtrip invariant is about: parse a token
buffer, evaluate the program REPL-style (so the value of the final
statement is returned), and render the result with
`Interpreter::value_to_string`. -/
def parseEvalToString (tokens : List TokenWithSpan) : Option String :=
  match runParse tokens 30 with
  | .ok p _ =>
    (match interpretProgramRepl noValueModules 30 p with
     | .ok v => some (valueToString v)
     | _ => none)
  | _ => none

/-- Token buffer for a program consisting solely of an integer literal:
`n;` (the lexer produces `Number` tokens only from nonnegative decimal
digit runs, whose text is `toString n`). -/
def c6IntTokens (n : Nat) : List TokenWithSpan :=
  [tok (.number (Int.ofNat n)) 0, tok .semicolon 1, tok .eof 2]

/-- Token buffer for the program `true;`. -/
def c6TrueTokens : List TokenWithSpan := [tok .trueKw 0, tok .semicolon 1, tok .eof 2]

/-- Token buffer for the program `false;`. -/
def c6FalseTokens : List TokenWithSpan := [tok .falseKw 0, tok .semicolon 1, tok .eof 2]

/-- Token buffer for a program consisting solely of a string literal
with unquoted content `s`. -/
def c6StrTokens (s : String) : List TokenWithSpan :=
  [tok (.stringLiteral s) 0, tok .semicolon 1, tok .eof 2]

/-- C6: `value_to_string` is total on every value variant, and for every
program consisting solely of an `Int`, `Bool`, or `String` literal the
composition parse → evaluate → `toString` returns exactly the original
textual literal (for a string literal, its unquoted content).  The
surface grammar has no `Unit` literal, so the `Unit` part of the claim
holds vacuously. -/
theorem c6_theorem :
    (∀ v : Value, ∃ s : String, valueToString v = s) ∧
    (∀ n : Nat, parseEvalToString (c6IntTokens n) = some (toString n)) ∧
    parseEvalToString c6TrueTokens = some "true" ∧
    parseEvalToString c6FalseTokens = some "false" ∧
    (∀ s : String, parseEvalToString (c6StrTokens s) = some s) :=
  ⟨fun v => ⟨valueToString v, rfl⟩, fun _ => rfl, rfl, rfl, fun _ => rfl⟩

/-- C10: `&&` and `||` on any two runtime values never error and apply
boolean conjunction/disjunction of the operands' truthiness, where
`Bool(false)`, `Unit`, `Int(0)` and the empty list are falsy and every
other value is truthy; both operands are always evaluated (no
short-circuit), so `false && (1 / 0)` still reports division by zero. -/
theorem c10_theorem :
    (∀ (l r : Value) (span : Span),
      binaryOpValues .logicalAnd l r span = .ok (.bool (l.isTruthy && r.isTruthy)) ∧
        binaryOpValues .logicalOr l r span = .ok (.bool (l.isTruthy || r.isTruthy))) ∧
    (∀ b : Bool, (Value.bool b).isTruthy = b) ∧
    Value.unit.isTruthy = false ∧
    (Value.int 0).isTruthy = false ∧
    (∀ n : Int, n ≠ 0 → (Value.int n).isTruthy = true) ∧
    (Value.list []).isTruthy = false ∧
    (∀ (v : Value) (vs : List Value), (Value.list (v :: vs)).isTruthy = true) ∧
    (∀ s, (Value.string s).isTruthy = true) ∧
    (∀ a b, (Value.pair a b).isTruthy = true) ∧
    (∀ p body env, (Value.function p body env).isTruthy = true) ∧
    (∀ v, (Value.leftInject v).isTruthy = true) ∧
    (∀ v, (Value.rightInject v).isTruthy = true) ∧
    (∀ v, (Value.fixedPoint v).isTruthy = true) ∧
    (∀ name exports, (Value.module name exports).isTruthy = true) ∧
    interpretExpr noValueModules 10 renvNew
        (.binaryOp (.boolean false (Span.new 0 1 1 1)) .logicalAnd
          (.binaryOp (.number 1 (Span.new 2 3 1 3)) .divide (.number 0 (Span.new 4 5 1 5))
            (Span.new 2 5 1 3))
          (Span.new 0 5 1 1)) =
      .err (.divisionByZero (Span.new 2 5 1 3)) := by
  refine ⟨fun l r span => ⟨rfl, rfl⟩, fun b => rfl, rfl, by decide, ?_, rfl,
    fun v vs => rfl, fun s => rfl, fun a b => rfl, fun p body env => rfl,
    fun v => rfl, fun v => rfl, fun v => rfl, fun name exports => rfl, rfl⟩
  intro n hn
  simp [Value.isTruthy, hn]

/-- C10 witness: instantiating the nonzero-integer truthiness at 2. -/
theorem c10_witness : (2 : Int) ≠ 0 ∧ (Value.int 2).isTruthy = true :=
  ⟨by decide, c10_theorem.2.2.2.2.1 2 (by decide)⟩

end Corrosion
